import Mathlib

/-!
# User phrase frequencies of libchewing (`src/userphrase.c`)

A shallow embedding of `userphrase.c`: the frequency update `UpdateFreq`, the two
frequency lookups `LoadOriginalFreq` and `LoadMaxFreq`, the key binding `UserBindPhone`
and the upsert `UserUpdatePhrase`, followed by theorems about them.

Conventions of the embedding.

* A C `int` is a 32-bit integer in two-complement representation: an `Int` between
  `-2^31` and `2^31 - 1`.  The sums and differences of stored frequencies and times
  (all those of `UpdateFreq`, and the elapsed time in `UserUpdatePhrase`) are reduced by
  `wrap32`, which is what the compiled code yields when a result leaves that range; `/`
  on `int` is `Int.tdiv` (truncation toward zero).  A length is a count of at most
  `MAX_PHRASE_LEN` codes and is computed exactly.
* A `uint16_t` phone code is a `Nat`; a phone sequence in memory is a `List Nat`, read
  with `phoneSeq.getD i 0`, so the list is followed by its zero terminator.
* A C string (`wordSeq`, `phrase->phrase`) is a `String`; `strcmp` is equality.
* The numeric macros of the headers (`FREQ_INIT_VALUE`, `SHORT_INCREASE_FREQ`, ...) are
  the fields of `Consts`: every theorem holds for all values of them, under the
  assumptions on them that it states.  The macros that name a parameter slot, a result
  column or a result of `UserUpdatePhrase` are constructors of an enumeration.
* A function that changes a statement or the program state returns the new value next to
  its result.  `sqlite3_finalize`, `ALC`, `free` and `LOG_INFO` do not change the state
  that is modelled and are left out.
-/

namespace Chewing

/-! ## Constants and macros of the headers -/

/-- The numeric macros `userphrase.c` takes from its headers. -/
structure Consts where
  FREQ_INIT_VALUE : Int
  SHORT_INCREASE_FREQ : Int
  MEDIUM_INCREASE_FREQ : Int
  LONG_DECREASE_FREQ : Int
  MAX_ALLOW_FREQ : Int
  MAX_PHRASE_LEN : Nat

/-- One setting of the constants, used to evaluate the definitions on concrete inputs:
`SHORT_INCREASE_FREQ = 50` and `LONG_DECREASE_FREQ = 10` are the values in the scenarios
of the specification, and `MEDIUM_INCREASE_FREQ` is smaller than `SHORT_INCREASE_FREQ` as
the specification requires. -/
def sampleConsts : Consts where
  FREQ_INIT_VALUE := 1
  SHORT_INCREASE_FREQ := 50
  MEDIUM_INCREASE_FREQ := 5
  LONG_DECREASE_FREQ := 10
  MAX_ALLOW_FREQ := 99999999
  MAX_PHRASE_LEN := 11

/-- The macro `min(a, b)`, that is `a < b ? a : b`. -/
def c_min (a b : Int) : Int := if a < b then a else b

/-- The macro `max(a, b)`, that is `a > b ? a : b`. -/
def c_max (a b : Int) : Int := if a > b then a else b

/-! ## `UpdateFreq` (lines 93-124) -/

/-- The range of a 32-bit `int`. -/
def int32 (x : Int) : Prop := -2147483648 ≤ x ∧ x ≤ 2147483647

instance (x : Int) : Decidable (int32 x) := by
  unfold int32; infer_instance

/-- The value a 32-bit `int` in two-complement representation holds after an operation
whose exact result is `x`. -/
def wrap32 (x : Int) : Int := (x + 2147483648) % 4294967296 - 2147483648

/-- The function `static int UpdateFreq( int freq, int maxfreq, int origfreq,
int deltatime )`: compute the new updated frequency.  Every sum and every difference of
the source is a 32-bit operation and is reduced by `wrap32`. -/
def UpdateFreq (c : Consts) (freq maxfreq origfreq deltatime : Int) : Int :=
  -- Short interval
  if deltatime < 4000 then
    let delta :=
      if freq ≥ maxfreq then
        c_min (wrap32 ((wrap32 (maxfreq - origfreq)).tdiv 5 + 1)) c.SHORT_INCREASE_FREQ
      else
        c_max (wrap32 ((wrap32 (maxfreq - origfreq)).tdiv 5 + 1)) c.SHORT_INCREASE_FREQ
    c_min (wrap32 (freq + delta)) c.MAX_ALLOW_FREQ
  -- Medium interval
  else if deltatime < 50000 then
    let delta :=
      if freq ≥ maxfreq then
        c_min (wrap32 ((wrap32 (maxfreq - origfreq)).tdiv 10 + 1)) c.MEDIUM_INCREASE_FREQ
      else
        c_max (wrap32 ((wrap32 (maxfreq - origfreq)).tdiv 10 + 1)) c.MEDIUM_INCREASE_FREQ
    c_min (wrap32 (freq + delta)) c.MAX_ALLOW_FREQ
  -- long interval
  else
    let delta := c_max ((wrap32 (freq - origfreq)).tdiv 5) c.LONG_DECREASE_FREQ
    c_max (wrap32 (freq - delta)) origfreq

/-- The three-regime definition of the specification (section 4.3), written from its
words on the integers: `base`, then `delta` by comparison of the previous frequency with
`maxFreq`, then the clamp; the long regime decays toward `origFreq`. -/
def nextFreq (c : Consts) (prevUserFreq maxFreq origFreq elapsed : Int) : Int :=
  if elapsed < 4000 then
    let base := (maxFreq - origFreq).tdiv 5 + 1
    let delta := if prevUserFreq ≥ maxFreq then min base c.SHORT_INCREASE_FREQ
                 else max base c.SHORT_INCREASE_FREQ
    min (prevUserFreq + delta) c.MAX_ALLOW_FREQ
  else if 4000 ≤ elapsed ∧ elapsed < 50000 then
    let base := (maxFreq - origFreq).tdiv 10 + 1
    let delta := if prevUserFreq ≥ maxFreq then min base c.MEDIUM_INCREASE_FREQ
                 else max base c.MEDIUM_INCREASE_FREQ
    min (prevUserFreq + delta) c.MAX_ALLOW_FREQ
  else
    let delta := max ((prevUserFreq - origFreq).tdiv 5) c.LONG_DECREASE_FREQ
    max (prevUserFreq - delta) origFreq

/-- No sum and no difference that `UpdateFreq` computes on the branch it takes leaves the
range of a 32-bit `int`: in the two reinforcing regimes `maxfreq - origfreq` and
`freq + delta`, in the long regime `freq - origfreq` and `freq - delta`. -/
def NoOverflow (c : Consts) (freq maxfreq origfreq deltatime : Int) : Prop :=
  if deltatime < 4000 then
    int32 (maxfreq - origfreq)
    ∧ int32 (freq + (if freq ≥ maxfreq
        then min ((maxfreq - origfreq).tdiv 5 + 1) c.SHORT_INCREASE_FREQ
        else max ((maxfreq - origfreq).tdiv 5 + 1) c.SHORT_INCREASE_FREQ))
  else if deltatime < 50000 then
    int32 (maxfreq - origfreq)
    ∧ int32 (freq + (if freq ≥ maxfreq
        then min ((maxfreq - origfreq).tdiv 10 + 1) c.MEDIUM_INCREASE_FREQ
        else max ((maxfreq - origfreq).tdiv 10 + 1) c.MEDIUM_INCREASE_FREQ))
  else
    int32 (freq - origfreq)
    ∧ int32 (freq - max ((freq - origfreq).tdiv 5) c.LONG_DECREASE_FREQ)

instance (c : Consts) (freq maxfreq origfreq deltatime : Int) :
    Decidable (NoOverflow c freq maxfreq origfreq deltatime) := by
  unfold NoOverflow; infer_instance

/-- The range from `-2^29` to `2^29`, in which frequencies and increments are far from
the limits of a 32-bit `int`. -/
def small (x : Int) : Prop := -536870912 ≤ x ∧ x ≤ 536870912

/-! ## The static dictionary (external to `userphrase.c`) -/

/-- The type `Phrase` of `dict-private.h`: the text of a dictionary entry and its
frequency. -/
structure Phrase where
  phrase : String
  freq : Int
  deriving DecidableEq

/-- The type `TreeType` as far as this file uses it: a node of the phrase tree gives
access to a first phrase (`GetPhraseFirst`) and to the phrases after it
(`GetVocabNext`). -/
structure TreeType where
  first : Phrase
  next : List Phrase
  deriving DecidableEq

/-! ## The SQLite interface (external to `userphrase.c`) -/

/-- Result codes of the SQLite calls, as far as `userphrase.c` tells them apart. -/
inductive Rc where
  | SQLITE_OK
  | SQLITE_ROW
  | SQLITE_DONE
  | SQLITE_ERROR
  deriving DecidableEq

/-- The statements `userphrase.c` prepares: three named by a macro and the aggregate
whose text is written out in `LoadMaxFreq`. -/
inductive Sql where
  | DB_SELECT_USERPHRASE_BY_PHONE
  | DB_SELECT_USERPHRASE_BY_PHONE_PHRASE
  | DB_UPSERT_USERPHRASE
  | SELECT_MAX_USER_FREQ
  deriving DecidableEq

/-- The parameter slots of a statement.  The `DB_INDEX_*` macros are taken as names of
distinct slots; `DB_INDEX_PHONE i` is the slot `i + DB_INDEX_PHONE_0` and `INDEX n` is
the slot with the literal index `n`. -/
inductive Param where
  | DB_INDEX_TIME
  | DB_INDEX_ORIG_FREQ
  | DB_INDEX_MAX_FREQ
  | DB_INDEX_USER_FREQ
  | DB_INDEX_LENGTH
  | DB_INDEX_PHRASE
  | DB_INDEX_PHONE (i : Nat)
  | INDEX (n : Nat)
  deriving DecidableEq

/-- The integer columns of a result row: the `DB_SELECT_INDEX_*` macros, and `INDEX n`
for the literal column index `n`. -/
inductive Column where
  | DB_SELECT_INDEX_TIME
  | DB_SELECT_INDEX_ORIG_FREQ
  | DB_SELECT_INDEX_MAX_FREQ
  | DB_SELECT_INDEX_USER_FREQ
  | INDEX (n : Nat)
  deriving DecidableEq

/-- The calls to the store that can fail for a reason outside the program. -/
inductive Call where
  | prepare (sql : Sql)
  | bind (sql : Sql) (p : Param)
  | step (sql : Sql)
  deriving DecidableEq

/-- One row of the table `userphrase_v1`. -/
structure UserPhraseRow where
  time : Int
  orig_freq : Int
  max_freq : Int
  user_freq : Int
  length : Int
  phone : List Int
  phrase : String
  deriving DecidableEq

/-- The database connection `pgdata->static_data.db`: the rows of `userphrase_v1` and,
for every call, whether the store fails it. -/
structure sqlite3 where
  userphrase_v1 : List UserPhraseRow
  fails : Call → Bool

/-- A prepared statement: its text, the parameters bound so far (latest first), the
failures of its connection, and the integer columns of the row it points to, if any
(`none` in a column is SQL `NULL`). -/
structure sqlite3_stmt where
  sql : Sql
  ints : List (Param × Int)
  texts : List (Param × String)
  blobs : List (Param × List Nat)
  fails : Call → Bool
  row : Option (Column → Option Int)

/-- The integer bound to a parameter, `none` when it is unbound (`NULL`). -/
def sqlite3_stmt.int (stmt : sqlite3_stmt) (p : Param) : Option Int := stmt.ints.lookup p

/-- The text bound to a parameter, `none` when it is unbound (`NULL`). -/
def sqlite3_stmt.text (stmt : sqlite3_stmt) (p : Param) : Option String :=
  stmt.texts.lookup p

/-- The blob bound to a parameter, `none` when it is unbound (`NULL`). -/
def sqlite3_stmt.blob (stmt : sqlite3_stmt) (p : Param) : Option (List Nat) :=
  stmt.blobs.lookup p

/-- The call `sqlite3_prepare_v2`: a fresh statement, or an error code and no
statement. -/
def sqlite3_prepare_v2 (db : sqlite3) (sql : Sql) : Except Rc sqlite3_stmt :=
  if db.fails (.prepare sql) then .error .SQLITE_ERROR
  else .ok { sql := sql, ints := [], texts := [], blobs := [], fails := db.fails, row := none }

/-- The call `sqlite3_bind_int`. -/
def sqlite3_bind_int (stmt : sqlite3_stmt) (p : Param) (v : Int) : Rc × sqlite3_stmt :=
  if stmt.fails (.bind stmt.sql p) then (.SQLITE_ERROR, stmt)
  else (.SQLITE_OK, { stmt with ints := (p, v) :: stmt.ints })

/-- The call `sqlite3_bind_text`. -/
def sqlite3_bind_text (stmt : sqlite3_stmt) (p : Param) (s : String) : Rc × sqlite3_stmt :=
  if stmt.fails (.bind stmt.sql p) then (.SQLITE_ERROR, stmt)
  else (.SQLITE_OK, { stmt with texts := (p, s) :: stmt.texts })

/-- The call `sqlite3_bind_blob`, the blob being a list of 16-bit codes. -/
def sqlite3_bind_blob (stmt : sqlite3_stmt) (p : Param) (b : List Nat) : Rc × sqlite3_stmt :=
  if stmt.fails (.bind stmt.sql p) then (.SQLITE_ERROR, stmt)
  else (.SQLITE_OK, { stmt with blobs := (p, b) :: stmt.blobs })

/-- The call `sqlite3_column_int`: the integer in a column of the current row; `NULL`, a
statement without a current row and a null statement give 0. -/
def sqlite3_column_int (stmt : Option sqlite3_stmt) (iCol : Column) : Int :=
  match stmt with
  | none => 0
  | some s =>
    match s.row with
    | none => 0
    | some r => (r iCol).getD 0

/-- The integer columns of a row of `userphrase_v1` as a result row. -/
def UserPhraseRow.columns (r : UserPhraseRow) : Column → Option Int
  | .DB_SELECT_INDEX_TIME => some r.time
  | .DB_SELECT_INDEX_ORIG_FREQ => some r.orig_freq
  | .DB_SELECT_INDEX_MAX_FREQ => some r.max_freq
  | .DB_SELECT_INDEX_USER_FREQ => some r.user_freq
  | .INDEX _ => none

/-- Modelled from the spec: the text of `DB_SELECT_USERPHRASE_BY_PHONE_PHRASE` and of
`DB_UPSERT_USERPHRASE` is in a header outside `src/`.  The specification keys a record by
the exact pair of sequence and text: a row is the one a statement addresses when its
`length`, its `MAX_PHRASE_LEN` phone slots and its phrase equal the bound parameters (an
unbound parameter is `NULL` and equals nothing). -/
def UserPhraseRow.addressedBy (c : Consts) (r : UserPhraseRow) (stmt : sqlite3_stmt) : Bool :=
  decide (stmt.int .DB_INDEX_LENGTH = some r.length)
  && decide ((List.range c.MAX_PHRASE_LEN).map (fun i => stmt.int (.DB_INDEX_PHONE i))
        = r.phone.map some)
  && decide (stmt.text .DB_INDEX_PHRASE = some r.phrase)

/-- Modelled from the spec: the text of `DB_UPSERT_USERPHRASE` is in a header outside
`src/`.  The row an upsert writes is read from its bound parameters (an unbound integer is
stored as 0, an unbound text as the empty string). -/
def UserPhraseRow.ofParams (c : Consts) (stmt : sqlite3_stmt) : UserPhraseRow where
  time := (stmt.int .DB_INDEX_TIME).getD 0
  orig_freq := (stmt.int .DB_INDEX_ORIG_FREQ).getD 0
  max_freq := (stmt.int .DB_INDEX_MAX_FREQ).getD 0
  user_freq := (stmt.int .DB_INDEX_USER_FREQ).getD 0
  length := (stmt.int .DB_INDEX_LENGTH).getD 0
  phone := (List.range c.MAX_PHRASE_LEN).map (fun i => (stmt.int (.DB_INDEX_PHONE i)).getD 0)
  phrase := (stmt.text .DB_INDEX_PHRASE).getD ""

/-- The phone sequence of a stored row: its first `length` phone slots. -/
def UserPhraseRow.phoneSeq (r : UserPhraseRow) : List Int := r.phone.take r.length.toNat

/-- Modelled from the spec: the table behind `SELECT MAX(user_freq) FROM userphrase_v1
WHERE phone = ?1` is declared outside `src/`.  The specification describes the query as
the greatest `userFreq` among the records sharing the sequence: the aggregate ranges over
the rows whose sequence, followed by its terminator, is the bound blob; `none` is the
`NULL` an aggregate gives when no row matches. -/
def max_user_freq (rows : List UserPhraseRow) (blob : Option (List Nat)) : Option Int :=
  ((rows.filter (fun r => decide (some (r.phoneSeq ++ [0]) = blob.map (List.map Int.ofNat)))).map
      (fun r => r.user_freq)).foldl
    (fun acc v => some (match acc with
      | none => v
      | some a => max a v)) none

/-- Modelled from the spec: the texts of the statements are in headers outside `src/`.
This is `sqlite3_step` on a statement that has not been stepped yet.  The exact-key
select points the statement to the row it addresses (`SQLITE_ROW`) or finds none
(`SQLITE_DONE`); the select by phone does the same with the first row of the sequence;
the upsert replaces the addressed row, or adds a row, in one step (`SQLITE_DONE`); the
aggregate always yields one row. -/
def sqlite3_step (c : Consts) (db : sqlite3) (stmt : sqlite3_stmt) :
    Rc × sqlite3 × sqlite3_stmt :=
  if stmt.fails (.step stmt.sql) then (.SQLITE_ERROR, db, stmt)
  else
    match stmt.sql with
    | .DB_SELECT_USERPHRASE_BY_PHONE_PHRASE =>
      match db.userphrase_v1.find? (fun r => r.addressedBy c stmt) with
      | some r => (.SQLITE_ROW, db, { stmt with row := some r.columns })
      | none => (.SQLITE_DONE, db, { stmt with row := none })
    | .DB_SELECT_USERPHRASE_BY_PHONE =>
      match db.userphrase_v1.find? (fun r =>
          decide (stmt.int .DB_INDEX_LENGTH = some r.length)
          && decide ((List.range c.MAX_PHRASE_LEN).map (fun i => stmt.int (.DB_INDEX_PHONE i))
                = r.phone.map some)) with
      | some r => (.SQLITE_ROW, db, { stmt with row := some r.columns })
      | none => (.SQLITE_DONE, db, { stmt with row := none })
    | .DB_UPSERT_USERPHRASE =>
      (.SQLITE_DONE,
        { db with userphrase_v1 :=
            db.userphrase_v1.filter (fun r => !r.addressedBy c stmt)
              ++ [UserPhraseRow.ofParams c stmt] },
        stmt)
    | .SELECT_MAX_USER_FREQ =>
      (.SQLITE_ROW, db,
        { stmt with row := some (fun iCol =>
            if iCol = .INDEX 0 then max_user_freq db.userphrase_v1 (stmt.blob (.INDEX 1))
            else none) })

/-! ## The program state -/

/-- The type `ChewingData` as far as `userphrase.c` uses it: the static dictionary (the
phrases of each phone sequence, in the order of the tree), the database connection, the
statement of the open retrieval (`NULL` when there is none) and the lifetime counter. -/
structure ChewingData where
  dict : List Nat → List Phrase
  db : sqlite3
  userphrase_stmt : Option sqlite3_stmt
  new_lifetime : Int

/-- The results of `UserUpdatePhrase`. -/
inductive UserUpdate where
  | USER_UPDATE_INSERT
  | USER_UPDATE_MODIFY
  | USER_UPDATE_FAIL
  deriving DecidableEq

/-- Modelled from the spec: `TreeFindPhrase` is defined outside `src/`; it finds the
entries of the static dictionary whose phonetic key is `phoneSeq[begin..end]`, in order,
and returns `NULL` when there is none. -/
def TreeFindPhrase (pgdata : ChewingData) (begin_ end_ : Int) (phoneSeq : List Nat) :
    Option TreeType :=
  match pgdata.dict ((List.range (end_ - begin_ + 1).toNat).map
      (fun k => phoneSeq.getD (begin_.toNat + k) 0)) with
  | [] => none
  | p :: ps => some { first := p, next := ps }

/-- Modelled from the spec: `GetPhoneLen` is defined outside `src/`; the specification
gives the length of a sequence as the count of its leading non-zero codes, capped at
`MAX_PHRASE_LEN`. -/
def GetPhoneLen (c : Consts) (phoneSeq : List Nat) : Nat :=
  min (phoneSeq.takeWhile (fun x => x ≠ 0)).length c.MAX_PHRASE_LEN

/-! ## `LoadOriginalFreq` (lines 29-52) -/

/-- The `do ... while ( GetVocabNext( pgdata, phrase ) )` loop of `LoadOriginalFreq`:
`phrase` is the current phrase, the list holds the phrases `GetVocabNext` will give.
The result `some` is the `return` inside the loop, `none` is leaving the loop. -/
def LoadOriginalFreq.loop (wordSeq : String) : Phrase → List Phrase → Option Int
  | phrase, rest =>
    -- find the same phrase
    if phrase.phrase = wordSeq then some phrase.freq
    else
      match rest with
      | [] => none
      | p :: ps => LoadOriginalFreq.loop wordSeq p ps

/-- The function `static int LoadOriginalFreq( pgdata, phoneSeq, wordSeq, len )`: load
the original frequency from the static dictionary. -/
def LoadOriginalFreq (c : Consts) (pgdata : ChewingData) (phoneSeq : List Nat)
    (wordSeq : String) (len : Int) : Int :=
  match TreeFindPhrase pgdata 0 (len - 1) phoneSeq with
  | some tree_pos =>
    match LoadOriginalFreq.loop wordSeq tree_pos.first tree_pos.next with
    | some retval => retval
    | none => c.FREQ_INIT_VALUE
  | none => c.FREQ_INIT_VALUE

/-! ## `LoadMaxFreq` (lines 55-90) -/

/-- The `do ... while` loop of `LoadMaxFreq` over the phrases of the tree node. -/
def LoadMaxFreq.loop : Int → Phrase → List Phrase → Int
  | maxFreq, phrase, rest =>
    let maxFreq := if phrase.freq > maxFreq then phrase.freq else maxFreq
    match rest with
    | [] => maxFreq
    | p :: ps => LoadMaxFreq.loop maxFreq p ps

/-- The function `static int LoadMaxFreq( pgdata, phoneSeq, len )`.  Every `goto end`
returns the `maxFreq` of the static dictionary; after a `sqlite3_step` that returned
`SQLITE_ROW` the function assigns the column of the aggregate to `maxFreq` (line 85) and
returns it. -/
def LoadMaxFreq (c : Consts) (pgdata : ChewingData) (phoneSeq : List Nat) (len : Int) : Int :=
  let maxFreq := c.FREQ_INIT_VALUE
  let maxFreq :=
    match TreeFindPhrase pgdata 0 (len - 1) phoneSeq with
    | some tree_pos => LoadMaxFreq.loop maxFreq tree_pos.first tree_pos.next
    | none => maxFreq
  match sqlite3_prepare_v2 pgdata.db .SELECT_MAX_USER_FREQ with
  | .error _ => maxFreq
  | .ok stmt =>
    let r := sqlite3_bind_blob stmt (.INDEX 1)
      ((List.range (len + 1).toNat).map (fun i => phoneSeq.getD i 0))
    if r.1 ≠ .SQLITE_OK then maxFreq
    else
      let s := sqlite3_step c pgdata.db r.2
      if s.1 ≠ .SQLITE_ROW then maxFreq
      else sqlite3_column_int (some s.2.2) (.INDEX 0)

/-! ## `GetCurrentLifeTime` and `UserBindPhone` (lines 126-179) -/

/-- The function `static int GetCurrentLifeTime( ChewingData *pgdata )`. -/
def GetCurrentLifeTime (pgdata : ChewingData) : Int := pgdata.new_lifetime

/-- A loop `for ( ...; ++i ) { ret = sqlite3_bind_int( stmt, i + DB_INDEX_PHONE_0, v );
if ( ret != SQLITE_OK ) return ret; }` with the number of iterations left, the current
`i` and the statement; `v` is `value i`.  Both loops of `UserBindPhone` have this shape.
The first component is the code of the failed call, or `SQLITE_OK` when the loop ran to
its end. -/
def UserBindPhone.loop (value : Nat → Int) : Nat → Nat → sqlite3_stmt → Rc × sqlite3_stmt
  | 0, _, stmt => (.SQLITE_OK, stmt)
  | n + 1, i, stmt =>
    let r := sqlite3_bind_int stmt (.DB_INDEX_PHONE i) (value i)
    if r.1 ≠ .SQLITE_OK then r
    else UserBindPhone.loop value n (i + 1) r.2

/-- The function `static int UserBindPhone( sqlite3_stmt *stmt, const uint16_t
phoneSeq[] )`: the returned code and the statement after the call. -/
def UserBindPhone (c : Consts) (stmt : sqlite3_stmt) (phoneSeq : List Nat) :
    Rc × sqlite3_stmt :=
  let len := GetPhoneLen c phoneSeq
  let r := sqlite3_bind_int stmt .DB_INDEX_LENGTH len
  if r.1 ≠ .SQLITE_OK then r
  else
    -- for ( i = 0; i < len; ++i )
    let r := UserBindPhone.loop (fun i => (phoneSeq.getD i 0 : Nat)) len 0 r.2
    if r.1 ≠ .SQLITE_OK then r
    else
      -- for ( i = len; i < MAX_PHRASE_LEN; ++i )
      UserBindPhone.loop (fun _ => 0) (c.MAX_PHRASE_LEN - len) len r.2

/-! ## `UserUpdatePhrase` (lines 186-268) -/

/-- The second half of `UserUpdatePhrase` (lines 230-263), which both branches of the
first half reach with `action`, `orig_freq`, `max_freq`, `user_freq` and `recent_time`
set: prepare the upsert, bind the four numbers, the key and the phrase, and step.  Every
`goto error` returns `USER_UPDATE_FAIL` and leaves the state as it was. -/
def UserUpdatePhrase.upsert (c : Consts) (pgdata : ChewingData) (phoneSeq : List Nat)
    (wordSeq : String) (action : UserUpdate) (orig_freq max_freq user_freq recent_time : Int) :
    UserUpdate × ChewingData :=
  match sqlite3_prepare_v2 pgdata.db .DB_UPSERT_USERPHRASE with
  | .error _ => (.USER_UPDATE_FAIL, pgdata)
  | .ok stmt =>
    let r := sqlite3_bind_int stmt .DB_INDEX_ORIG_FREQ orig_freq
    if r.1 ≠ .SQLITE_OK then (.USER_UPDATE_FAIL, pgdata)
    else
      let r := sqlite3_bind_int r.2 .DB_INDEX_MAX_FREQ max_freq
      if r.1 ≠ .SQLITE_OK then (.USER_UPDATE_FAIL, pgdata)
      else
        let r := sqlite3_bind_int r.2 .DB_INDEX_USER_FREQ user_freq
        if r.1 ≠ .SQLITE_OK then (.USER_UPDATE_FAIL, pgdata)
        else
          let r := sqlite3_bind_int r.2 .DB_INDEX_TIME recent_time
          if r.1 ≠ .SQLITE_OK then (.USER_UPDATE_FAIL, pgdata)
          else
            let r := UserBindPhone c r.2 phoneSeq
            if r.1 ≠ .SQLITE_OK then (.USER_UPDATE_FAIL, pgdata)
            else
              let r := sqlite3_bind_text r.2 .DB_INDEX_PHRASE wordSeq
              if r.1 ≠ .SQLITE_OK then (.USER_UPDATE_FAIL, pgdata)
              else
                let s := sqlite3_step c pgdata.db r.2
                if s.1 ≠ .SQLITE_DONE then (.USER_UPDATE_FAIL, pgdata)
                else (action, { pgdata with db := s.2.1 })

/-- The function `int UserUpdatePhrase( pgdata, phoneSeq, wordSeq )`: the returned action
and the program state after the call.  In the branch of `SQLITE_ROW` the columns are read
from `pgdata->static_data.userphrase_stmt`, as in the source (lines 216-222). -/
def UserUpdatePhrase (c : Consts) (pgdata : ChewingData) (phoneSeq : List Nat)
    (wordSeq : String) : UserUpdate × ChewingData :=
  let len : Int := GetPhoneLen c phoneSeq
  match sqlite3_prepare_v2 pgdata.db .DB_SELECT_USERPHRASE_BY_PHONE_PHRASE with
  | .error _ => (.USER_UPDATE_FAIL, pgdata)
  | .ok stmt =>
    let r := UserBindPhone c stmt phoneSeq
    if r.1 ≠ .SQLITE_OK then (.USER_UPDATE_FAIL, pgdata)
    else
      let r := sqlite3_bind_text r.2 .DB_INDEX_PHRASE wordSeq
      if r.1 ≠ .SQLITE_OK then (.USER_UPDATE_FAIL, pgdata)
      else
        let recent_time := GetCurrentLifeTime pgdata
        let s := sqlite3_step c pgdata.db r.2
        if s.1 = .SQLITE_ROW then
          let orig_freq :=
            sqlite3_column_int pgdata.userphrase_stmt .DB_SELECT_INDEX_ORIG_FREQ
          let max_freq := LoadMaxFreq c pgdata phoneSeq len
          let user_freq := UpdateFreq c
            (sqlite3_column_int pgdata.userphrase_stmt .DB_SELECT_INDEX_USER_FREQ)
            (sqlite3_column_int pgdata.userphrase_stmt .DB_SELECT_INDEX_MAX_FREQ)
            orig_freq
            (wrap32 (recent_time
              - sqlite3_column_int pgdata.userphrase_stmt .DB_SELECT_INDEX_TIME))
          UserUpdatePhrase.upsert c pgdata phoneSeq wordSeq .USER_UPDATE_MODIFY
            orig_freq max_freq user_freq recent_time
        else
          let orig_freq := LoadOriginalFreq c pgdata phoneSeq wordSeq len
          let max_freq := LoadMaxFreq c pgdata phoneSeq len
          let user_freq := orig_freq
          UserUpdatePhrase.upsert c pgdata phoneSeq wordSeq .USER_UPDATE_INSERT
            orig_freq max_freq user_freq recent_time

/-! ## Notions used to state the theorems -/

/-- The integer parameters after a loop of `UserBindPhone` that meets no failure:
`n` slots from slot `i` on are bound, the latest first. -/
def boundPhones (value : Nat → Int) : Nat → Nat → List (Param × Int) → List (Param × Int)
  | 0, _, l => l
  | n + 1, i, l => boundPhones value n (i + 1) ((.DB_INDEX_PHONE i, value i) :: l)

/-- The integer parameters after `UserBindPhone` met no failure: the length, then the
slots below the length, then the slots from the length to `MAX_PHRASE_LEN`. -/
def boundKey (c : Consts) (phoneSeq : List Nat) (l : List (Param × Int)) : List (Param × Int) :=
  boundPhones (fun _ => 0) (c.MAX_PHRASE_LEN - GetPhoneLen c phoneSeq) (GetPhoneLen c phoneSeq)
    (boundPhones (fun i => (phoneSeq.getD i 0 : Nat)) (GetPhoneLen c phoneSeq) 0
      ((Param.DB_INDEX_LENGTH, (GetPhoneLen c phoneSeq : Int)) :: l))

/-- The fixed-width encoding of a phone sequence, as the specification describes it: slot
`i` holds the code `i` of the sequence below its length and 0 from there on. -/
def phoneSlots (c : Consts) (phoneSeq : List Nat) : List Int :=
  (List.range c.MAX_PHRASE_LEN).map
    (fun i => if i < GetPhoneLen c phoneSeq then (phoneSeq.getD i 0 : Int) else 0)

/-- A stored row is the record of the pair `(phoneSeq, wordSeq)`: its length, its phone
slots and its phrase are those of the pair. -/
def UserPhraseRow.hasKey (c : Consts) (r : UserPhraseRow) (phoneSeq : List Nat)
    (wordSeq : String) : Prop :=
  r.length = (GetPhoneLen c phoneSeq : Int) ∧ r.phone = phoneSlots c phoneSeq
    ∧ r.phrase = wordSeq

instance (c : Consts) (r : UserPhraseRow) (phoneSeq : List Nat) (wordSeq : String) :
    Decidable (r.hasKey c phoneSeq wordSeq) := by
  unfold UserPhraseRow.hasKey; infer_instance

/-- The row a successful `UserUpdatePhrase` writes, given the four numbers it bound. -/
def writtenRow (c : Consts) (phoneSeq : List Nat) (wordSeq : String)
    (orig_freq max_freq user_freq recent_time : Int) : UserPhraseRow where
  time := recent_time
  orig_freq := orig_freq
  max_freq := max_freq
  user_freq := user_freq
  length := GetPhoneLen c phoneSeq
  phone := phoneSlots c phoneSeq
  phrase := wordSeq

/-- The table after the row of the pair `(phoneSeq, wordSeq)`, if any, is replaced by
`row`. -/
def replaceRow (c : Consts) (rows : List UserPhraseRow) (phoneSeq : List Nat)
    (wordSeq : String) (row : UserPhraseRow) : List UserPhraseRow :=
  rows.filter (fun r => !decide (r.hasKey c phoneSeq wordSeq)) ++ [row]

/-- The program state with another content of the table. -/
def ChewingData.withRows (pgdata : ChewingData) (rows : List UserPhraseRow) : ChewingData :=
  { pgdata with db := { pgdata.db with userphrase_v1 := rows } }

/-! ## Concrete inputs -/

/-- A connection holding `rows` on which no call fails. -/
def healthyDb (rows : List UserPhraseRow) : sqlite3 :=
  { userphrase_v1 := rows, fails := fun _ => false }

/-- The stored record of the sequence `[1, 2]` with the text "A". -/
def recordA : UserPhraseRow :=
  { time := 0, orig_freq := 100, max_freq := 100, user_freq := 100, length := 2,
    phone := [1, 2, 0, 0, 0, 0, 0, 0, 0, 0, 0], phrase := "A" }

/-- The stored record of another sequence, `[3]`, with the text "C". -/
def recordC : UserPhraseRow :=
  { time := 5, orig_freq := 7, max_freq := 7, user_freq := 8, length := 1,
    phone := [3, 0, 0, 0, 0, 0, 0, 0, 0, 0, 0], phrase := "C" }

/-- A user-learned record of the sequence `[1, 2]` with the text "B" and the user
frequency 100. -/
def recordB : UserPhraseRow :=
  { time := 0, orig_freq := 1, max_freq := 500, user_freq := 100, length := 2,
    phone := [1, 2, 0, 0, 0, 0, 0, 0, 0, 0, 0], phrase := "B" }

/-- A state with `recordA` and `recordC` stored, an empty dictionary, the lifetime 10,
and a retrieval open on the sequence `[3]` whose statement points to `recordC`. -/
def openRetrievalState : ChewingData :=
  { dict := fun _ => []
    db := healthyDb [recordA, recordC]
    userphrase_stmt := some
      { sql := .DB_SELECT_USERPHRASE_BY_PHONE
        ints := boundKey sampleConsts [3] []
        texts := []
        blobs := []
        fails := fun _ => false
        row := some recordC.columns }
    new_lifetime := 10 }

/-- The state `openRetrievalState` without the open retrieval: `userphrase_stmt` is
`NULL`. -/
def noRetrievalState : ChewingData :=
  { openRetrievalState with userphrase_stmt := none }

/-- A state whose dictionary has the entry "A" with frequency 500 under `[1, 2]` and whose
table holds `recordB`; no call to the store fails. -/
def staticAboveUserState : ChewingData :=
  { dict := fun k => if k = [1, 2] then [{ phrase := "A", freq := 500 }] else []
    db := healthyDb [recordB]
    userphrase_stmt := none
    new_lifetime := 10 }

/-- A state whose dictionary has the entry "A" with frequency 100 under `[1, 2]`, whose
table holds a record of `[1, 2]` with the user frequency 500, and whose store fails to
prepare the aggregate query. -/
def failingAggregateState : ChewingData :=
  { dict := fun k => if k = [1, 2] then [{ phrase := "A", freq := 100 }] else []
    db := { userphrase_v1 := [{ recordB with user_freq := 500 }]
            fails := fun call => decide (call = .prepare .SELECT_MAX_USER_FREQ) }
    userphrase_stmt := none
    new_lifetime := 10 }

/-- A state with an empty table whose dictionary has the entries "B" (frequency 30) and
"A" (frequency 100) under `[1, 2]`. -/
def freshState : ChewingData :=
  { dict := fun k =>
      if k = [1, 2] then [{ phrase := "B", freq := 30 }, { phrase := "A", freq := 100 }]
      else []
    db := healthyDb []
    userphrase_stmt := none
    new_lifetime := 10 }

/-! ## Lemmas on the macros and on truncating division -/

theorem c_min_eq (a b : Int) : c_min a b = min a b := by
  unfold c_min
  split <;> omega

theorem c_max_eq (a b : Int) : c_max a b = max a b := by
  unfold c_max
  split <;> omega

/-- Truncating division by a positive literal, in terms of floor division. -/
theorem tdiv_pos_cases (x k : Int) (hk : 0 < k) :
    x.tdiv k = if 0 ≤ x then x / k else -((-x) / k) := by
  split
  · exact Int.tdiv_eq_ediv (by assumption) (le_of_lt hk)
  · have h : x = -(-x) := by omega
    conv_lhs => rw [h, Int.neg_tdiv]
    rw [Int.tdiv_eq_ediv (by omega) (le_of_lt hk)]

theorem tdiv5 (x : Int) : x.tdiv 5 = if 0 ≤ x then x / 5 else -((-x) / 5) :=
  tdiv_pos_cases x 5 (by decide)

theorem tdiv10 (x : Int) : x.tdiv 10 = if 0 ≤ x then x / 10 else -((-x) / 10) :=
  tdiv_pos_cases x 10 (by decide)

/-! ## The branches of `UpdateFreq` -/

theorem wrap32_eq (x : Int) (h : int32 x) : wrap32 x = x := by
  unfold int32 at h; unfold wrap32; omega

theorem int32_wrap32 (x : Int) : int32 (wrap32 x) := by
  unfold int32 wrap32; omega

/-- The quotient of a 32-bit `int` by 5, plus one, is a 32-bit `int`. -/
theorem int32_tdiv5_succ (x : Int) (h : int32 x) : int32 (x.tdiv 5 + 1) := by
  unfold int32 at *
  rw [tdiv5]; split <;> omega

/-- The quotient of a 32-bit `int` by 10, plus one, is a 32-bit `int`. -/
theorem int32_tdiv10_succ (x : Int) (h : int32 x) : int32 (x.tdiv 10 + 1) := by
  unfold int32 at *
  rw [tdiv10]; split <;> omega

/-- The long branch of `UpdateFreq` as the compiled code evaluates it. -/
theorem UpdateFreq_long_wrapped (c : Consts) (freq maxfreq origfreq deltatime : Int)
    (h : 50000 ≤ deltatime) :
    UpdateFreq c freq maxfreq origfreq deltatime
      = max (wrap32 (freq - max ((wrap32 (freq - origfreq)).tdiv 5) c.LONG_DECREASE_FREQ))
          origfreq := by
  have h1 : ¬ deltatime < 4000 := by omega
  have h2 : ¬ deltatime < 50000 := by omega
  simp only [UpdateFreq, c_max_eq, if_neg h1, if_neg h2]

/-- The short branch of `UpdateFreq` as the compiled code evaluates it. -/
theorem UpdateFreq_short_wrapped (c : Consts) (freq maxfreq origfreq deltatime : Int)
    (h : deltatime < 4000) :
    UpdateFreq c freq maxfreq origfreq deltatime
      = min (wrap32 (freq + (if freq ≥ maxfreq
            then min (wrap32 ((wrap32 (maxfreq - origfreq)).tdiv 5 + 1)) c.SHORT_INCREASE_FREQ
            else max (wrap32 ((wrap32 (maxfreq - origfreq)).tdiv 5 + 1)) c.SHORT_INCREASE_FREQ)))
          c.MAX_ALLOW_FREQ := by
  simp only [UpdateFreq, c_max_eq, c_min_eq, if_pos h]

/-- The medium branch of `UpdateFreq` as the compiled code evaluates it. -/
theorem UpdateFreq_medium_wrapped (c : Consts) (freq maxfreq origfreq deltatime : Int)
    (h1 : 4000 ≤ deltatime) (h2 : deltatime < 50000) :
    UpdateFreq c freq maxfreq origfreq deltatime
      = min (wrap32 (freq + (if freq ≥ maxfreq
            then min (wrap32 ((wrap32 (maxfreq - origfreq)).tdiv 10 + 1)) c.MEDIUM_INCREASE_FREQ
            else max (wrap32 ((wrap32 (maxfreq - origfreq)).tdiv 10 + 1)) c.MEDIUM_INCREASE_FREQ)))
          c.MAX_ALLOW_FREQ := by
  have h3 : ¬ deltatime < 4000 := by omega
  simp only [UpdateFreq, c_max_eq, c_min_eq, if_neg h3, if_pos h2]

/-- The long branch of `UpdateFreq` when nothing overflows. -/
theorem UpdateFreq_of_long (c : Consts) (freq maxfreq origfreq deltatime : Int)
    (h : 50000 ≤ deltatime) (hn : NoOverflow c freq maxfreq origfreq deltatime) :
    UpdateFreq c freq maxfreq origfreq deltatime
      = max (freq - max ((freq - origfreq).tdiv 5) c.LONG_DECREASE_FREQ) origfreq := by
  have h1 : ¬ deltatime < 4000 := by omega
  have h2 : ¬ deltatime < 50000 := by omega
  unfold NoOverflow at hn
  rw [if_neg h1, if_neg h2] at hn
  rw [UpdateFreq_long_wrapped _ _ _ _ _ h, wrap32_eq _ hn.1, wrap32_eq _ hn.2]

/-- The short branch of `UpdateFreq` when nothing overflows. -/
theorem UpdateFreq_of_short (c : Consts) (freq maxfreq origfreq deltatime : Int)
    (h : deltatime < 4000) (hn : NoOverflow c freq maxfreq origfreq deltatime) :
    UpdateFreq c freq maxfreq origfreq deltatime
      = min (freq + (if freq ≥ maxfreq
            then min ((maxfreq - origfreq).tdiv 5 + 1) c.SHORT_INCREASE_FREQ
            else max ((maxfreq - origfreq).tdiv 5 + 1) c.SHORT_INCREASE_FREQ))
          c.MAX_ALLOW_FREQ := by
  unfold NoOverflow at hn
  rw [if_pos h] at hn
  rw [UpdateFreq_short_wrapped _ _ _ _ _ h, wrap32_eq _ hn.1,
    wrap32_eq _ (int32_tdiv5_succ _ hn.1), wrap32_eq _ hn.2]

/-- The medium branch of `UpdateFreq` when nothing overflows. -/
theorem UpdateFreq_of_medium (c : Consts) (freq maxfreq origfreq deltatime : Int)
    (h1 : 4000 ≤ deltatime) (h2 : deltatime < 50000)
    (hn : NoOverflow c freq maxfreq origfreq deltatime) :
    UpdateFreq c freq maxfreq origfreq deltatime
      = min (freq + (if freq ≥ maxfreq
            then min ((maxfreq - origfreq).tdiv 10 + 1) c.MEDIUM_INCREASE_FREQ
            else max ((maxfreq - origfreq).tdiv 10 + 1) c.MEDIUM_INCREASE_FREQ))
          c.MAX_ALLOW_FREQ := by
  have h3 : ¬ deltatime < 4000 := by omega
  unfold NoOverflow at hn
  rw [if_neg h3, if_pos h2] at hn
  rw [UpdateFreq_medium_wrapped _ _ _ _ _ h1 h2, wrap32_eq _ hn.1,
    wrap32_eq _ (int32_tdiv10_succ _ hn.1), wrap32_eq _ hn.2]

/-- Nothing overflows when the three frequencies and the three increments lie between
`-2^29` and `2^29`. -/
theorem NoOverflow_of_small (c : Consts) (freq maxfreq origfreq deltatime : Int)
    (hf : small freq) (hm : small maxfreq) (ho : small origfreq)
    (hs : small c.SHORT_INCREASE_FREQ) (hmd : small c.MEDIUM_INCREASE_FREQ)
    (hl : small c.LONG_DECREASE_FREQ) :
    NoOverflow c freq maxfreq origfreq deltatime := by
  unfold small at *
  unfold NoOverflow int32
  rw [tdiv5, tdiv10, tdiv5]
  split
  · constructor
    · omega
    · split <;> split <;> omega
  · split
    · constructor
      · omega
      · split <;> split <;> omega
    · constructor
      · omega
      · split <;> omega

/-! ## Lemmas on the key binding -/

theorem lookup_boundPhones_phone (value : Nat → Int) (n i j : Nat) (l : List (Param × Int)) :
    (boundPhones value n i l).lookup (.DB_INDEX_PHONE j)
      = if i ≤ j ∧ j < i + n then some (value j) else l.lookup (.DB_INDEX_PHONE j) := by
  induction n generalizing i l with
  | zero => rw [boundPhones, if_neg (by omega)]
  | succ n ih =>
    rw [boundPhones, ih]
    by_cases hj : j = i
    · subst hj
      simp [List.lookup_cons]
    · have hne : (Param.DB_INDEX_PHONE j == Param.DB_INDEX_PHONE i) = false := by
        simp [hj]
      rw [List.lookup_cons, hne]
      by_cases h1 : i + 1 ≤ j ∧ j < i + 1 + n
      · rw [if_pos h1, if_pos (by omega)]
      · rw [if_neg h1, if_neg (by omega)]

theorem lookup_boundPhones_other (value : Nat → Int) (n i : Nat) (l : List (Param × Int))
    (p : Param) (hp : ∀ j, p ≠ .DB_INDEX_PHONE j) :
    (boundPhones value n i l).lookup p = l.lookup p := by
  induction n generalizing i l with
  | zero => simp [boundPhones]
  | succ n ih =>
    rw [boundPhones, ih]
    have hne : (p == Param.DB_INDEX_PHONE i) = false := by simp [hp i]
    rw [List.lookup_cons, hne]

theorem boundPhones_congr (value value' : Nat → Int) (n i : Nat) (l : List (Param × Int))
    (h : ∀ j, i ≤ j → j < i + n → value j = value' j) :
    boundPhones value n i l = boundPhones value' n i l := by
  induction n generalizing i l with
  | zero => simp [boundPhones]
  | succ n ih =>
    rw [boundPhones, boundPhones, h i (le_refl _) (by omega)]
    exact ih _ _ (fun j h1 h2 => h j (by omega) (by omega))

theorem UserBindPhone.loop_congr (value value' : Nat → Int) (n i : Nat) (stmt : sqlite3_stmt)
    (h : ∀ j, i ≤ j → j < i + n → value j = value' j) :
    UserBindPhone.loop value n i stmt = UserBindPhone.loop value' n i stmt := by
  induction n generalizing i stmt with
  | zero => simp [UserBindPhone.loop]
  | succ n ih =>
    simp only [UserBindPhone.loop]
    rw [h i (le_refl _) (by omega)]
    split
    · rfl
    · exact ih _ _ (fun j h1 h2 => h j (by omega) (by omega))

theorem UserBindPhone.loop_ok (value : Nat → Int) (n i : Nat) (stmt : sqlite3_stmt)
    (hok : ∀ p, stmt.fails (.bind stmt.sql p) = false) :
    UserBindPhone.loop value n i stmt
      = (.SQLITE_OK, { stmt with ints := boundPhones value n i stmt.ints }) := by
  induction n generalizing i stmt with
  | zero => simp [UserBindPhone.loop, boundPhones]
  | succ n ih =>
    simp only [UserBindPhone.loop, sqlite3_bind_int, hok, Bool.false_eq_true, if_false,
      ne_eq, not_true_eq_false]
    rw [ih]
    · simp [boundPhones]
    · exact hok

theorem UserBindPhone_ok (c : Consts) (stmt : sqlite3_stmt) (phoneSeq : List Nat)
    (hok : ∀ p, stmt.fails (.bind stmt.sql p) = false) :
    UserBindPhone c stmt phoneSeq
      = (.SQLITE_OK, { stmt with ints := boundKey c phoneSeq stmt.ints }) := by
  have h1 := UserBindPhone.loop_ok (fun i => ((phoneSeq.getD i 0 : Nat) : Int))
    (GetPhoneLen c phoneSeq) 0
    ⟨stmt.sql, (Param.DB_INDEX_LENGTH, (GetPhoneLen c phoneSeq : Int)) :: stmt.ints,
      stmt.texts, stmt.blobs, stmt.fails, stmt.row⟩ hok
  have h2 := UserBindPhone.loop_ok (fun _ => 0) (c.MAX_PHRASE_LEN - GetPhoneLen c phoneSeq)
    (GetPhoneLen c phoneSeq)
    ⟨stmt.sql, boundPhones (fun i => ((phoneSeq.getD i 0 : Nat) : Int))
        (GetPhoneLen c phoneSeq) 0
        ((Param.DB_INDEX_LENGTH, (GetPhoneLen c phoneSeq : Int)) :: stmt.ints),
      stmt.texts, stmt.blobs, stmt.fails, stmt.row⟩ hok
  simp only [UserBindPhone, sqlite3_bind_int, hok, Bool.false_eq_true, if_false,
    ne_eq, not_true_eq_false, h1, h2, boundKey]

theorem GetPhoneLen_le (c : Consts) (phoneSeq : List Nat) :
    GetPhoneLen c phoneSeq ≤ c.MAX_PHRASE_LEN := by
  unfold GetPhoneLen; omega

/-- Reading the parameters bound by `UserBindPhone`. -/
theorem lookup_boundKey (c : Consts) (phoneSeq : List Nat) (l : List (Param × Int)) :
    (boundKey c phoneSeq l).lookup .DB_INDEX_LENGTH = some (GetPhoneLen c phoneSeq : Int)
    ∧ (∀ i, i < c.MAX_PHRASE_LEN →
        (boundKey c phoneSeq l).lookup (.DB_INDEX_PHONE i)
          = some (if i < GetPhoneLen c phoneSeq then (phoneSeq.getD i 0 : Int) else 0))
    ∧ (∀ p, p ≠ .DB_INDEX_LENGTH → (∀ i, i < c.MAX_PHRASE_LEN → p ≠ .DB_INDEX_PHONE i) →
        (boundKey c phoneSeq l).lookup p = l.lookup p) := by
  have hle := GetPhoneLen_le c phoneSeq
  unfold boundKey
  refine ⟨?_, ?_, ?_⟩
  · rw [lookup_boundPhones_other _ _ _ _ _ (by simp),
      lookup_boundPhones_other _ _ _ _ _ (by simp)]
    simp [List.lookup_cons]
  · intro i hi
    rw [lookup_boundPhones_phone, lookup_boundPhones_phone]
    by_cases h : i < GetPhoneLen c phoneSeq
    · rw [if_neg (by omega), if_pos (by omega), if_pos h]
    · rw [if_pos (by omega), if_neg h]
  · intro p hp hph
    have hne : (p == Param.DB_INDEX_LENGTH) = false := by simp [hp]
    cases p with
    | DB_INDEX_PHONE j =>
      have hj : ¬ j < c.MAX_PHRASE_LEN := fun h => hph j h rfl
      rw [lookup_boundPhones_phone, lookup_boundPhones_phone,
        if_neg (by omega), if_neg (by omega), List.lookup_cons, hne]
    | DB_INDEX_LENGTH => exact absurd rfl hp
    | _ =>
      rw [lookup_boundPhones_other _ _ _ _ _ (by simp),
        lookup_boundPhones_other _ _ _ _ _ (by simp), List.lookup_cons, hne]

/-- The integer parameters of a statement after `UserBindPhone` met no failure. -/
theorem UserBindPhone_int (c : Consts) (stmt : sqlite3_stmt) (phoneSeq : List Nat)
    (hok : ∀ p, stmt.fails (.bind stmt.sql p) = false) :
    (UserBindPhone c stmt phoneSeq).2.int .DB_INDEX_LENGTH = some (GetPhoneLen c phoneSeq : Int)
    ∧ (∀ i, i < c.MAX_PHRASE_LEN →
        (UserBindPhone c stmt phoneSeq).2.int (.DB_INDEX_PHONE i)
          = some (if i < GetPhoneLen c phoneSeq then (phoneSeq.getD i 0 : Int) else 0))
    ∧ (∀ p, p ≠ .DB_INDEX_LENGTH → (∀ i, i < c.MAX_PHRASE_LEN → p ≠ .DB_INDEX_PHONE i) →
        (UserBindPhone c stmt phoneSeq).2.int p = stmt.int p) := by
  rw [UserBindPhone_ok c stmt phoneSeq hok]
  exact lookup_boundKey c phoneSeq stmt.ints

theorem getD_takeWhile (p : Nat → Bool) (l : List Nat) (i d : Nat)
    (h : i < (l.takeWhile p).length) : (l.takeWhile p).getD i d = l.getD i d := by
  induction l generalizing i with
  | nil => simp at h
  | cons a t ih =>
    by_cases ha : p a = true
    · rw [List.takeWhile_cons_of_pos ha] at h ⊢
      cases i with
      | zero => simp
      | succ i =>
        simp only [List.getD_cons_succ]
        exact ih i (by simpa using h)
    · rw [List.takeWhile_cons_of_neg ha] at h
      simp at h

theorem length_takeWhile_take (p : Nat → Bool) (l : List Nat) (n : Nat) :
    ((l.take n).takeWhile p).length = min (l.takeWhile p).length n := by
  induction l generalizing n with
  | nil => simp
  | cons a t ih =>
    cases n with
    | zero => simp
    | succ n =>
      by_cases ha : p a = true
      · rw [List.take_succ_cons, List.takeWhile_cons_of_pos ha, List.takeWhile_cons_of_pos ha]
        simp only [List.length_cons, ih]
        omega
      · rw [List.take_succ_cons, List.takeWhile_cons_of_neg ha, List.takeWhile_cons_of_neg ha]
        simp

theorem getD_take (l : List Nat) (n i d : Nat) (h : i < n) :
    (l.take n).getD i d = l.getD i d := by
  induction l generalizing n i with
  | nil => simp
  | cons a t ih =>
    cases n with
    | zero => omega
    | succ n =>
      cases i with
      | zero => simp
      | succ i =>
        simp only [List.take_succ_cons, List.getD_cons_succ]
        exact ih n i (by omega)

theorem GetPhoneLen_take (c : Consts) (phoneSeq : List Nat) :
    GetPhoneLen c (phoneSeq.take c.MAX_PHRASE_LEN) = GetPhoneLen c phoneSeq := by
  unfold GetPhoneLen
  rw [length_takeWhile_take]
  omega

theorem GetPhoneLen_le_length (c : Consts) (phoneSeq : List Nat) :
    GetPhoneLen c phoneSeq ≤ phoneSeq.length := by
  unfold GetPhoneLen
  have h : (phoneSeq.takeWhile (fun x => decide (x ≠ 0))).Sublist phoneSeq :=
    List.takeWhile_sublist _
  have := h.length_le
  omega

/-- `UserBindPhone` reads a sequence only through its length and the codes below it. -/
theorem UserBindPhone_congr (c : Consts) (stmt : sqlite3_stmt) (p q : List Nat)
    (hlen : GetPhoneLen c p = GetPhoneLen c q)
    (hget : ∀ i, i < GetPhoneLen c p → p.getD i 0 = q.getD i 0) :
    UserBindPhone c stmt p = UserBindPhone c stmt q := by
  have h := UserBindPhone.loop_congr (fun i => ((p.getD i 0 : Nat) : Int))
    (fun i => ((q.getD i 0 : Nat) : Int)) (GetPhoneLen c q) 0
    (sqlite3_bind_int stmt .DB_INDEX_LENGTH (GetPhoneLen c q)).2
    (fun j _ hj => by show ((p.getD j 0 : Nat) : Int) = _; rw [hget j (by omega)])
  simp only [UserBindPhone, hlen, h]

theorem GetPhoneLen_congr (c : Consts) (p q : List Nat)
    (h : q.takeWhile (fun x => x ≠ 0) = p.takeWhile (fun x => x ≠ 0)) :
    GetPhoneLen c q = GetPhoneLen c p := by
  unfold GetPhoneLen
  rw [h]

/-! ## Lemmas on the dictionary lookup and on the upsert -/

theorem LoadOriginalFreq.loop_eq (wordSeq : String) (p : Phrase) (ps : List Phrase) :
    LoadOriginalFreq.loop wordSeq p ps
      = ((p :: ps).find? (fun x => decide (x.phrase = wordSeq))).map (fun x => x.freq) := by
  induction ps generalizing p with
  | nil =>
    unfold LoadOriginalFreq.loop
    by_cases h : p.phrase = wordSeq <;> simp [h]
  | cons a t ih =>
    unfold LoadOriginalFreq.loop
    by_cases h : p.phrase = wordSeq
    · simp [h]
    · simp only [h, if_false, ih]
      simp [List.find?_cons, h]

theorem range_map_getD (l : List Nat) (n : Nat) (h : n ≤ l.length) :
    (List.range n).map (fun k => l.getD k 0) = l.take n := by
  apply List.ext_getElem
  · simp [h]
  · intro i h1 h2
    simp at h1 h2
    simp [List.getD_eq_getElem?_getD, List.getElem?_eq_getElem (show i < l.length by omega)]

theorem TreeFindPhrase_eq (c : Consts) (pgdata : ChewingData) (phoneSeq : List Nat) :
    TreeFindPhrase pgdata 0 ((GetPhoneLen c phoneSeq : Int) - 1) phoneSeq
      = match pgdata.dict (phoneSeq.take (GetPhoneLen c phoneSeq)) with
        | [] => none
        | p :: ps => some { first := p, next := ps } := by
  unfold TreeFindPhrase
  have h1 : (((GetPhoneLen c phoneSeq : Int) - 1) - 0 + 1).toNat = GetPhoneLen c phoneSeq := by
    omega
  have h2 : (fun k => phoneSeq.getD ((0 : Int).toNat + k) 0) = (fun k => phoneSeq.getD k 0) := by
    funext k; simp
  rw [h1, h2, range_map_getD _ _ (GetPhoneLen_le_length c phoneSeq)]

/-- `LoadOriginalFreq` is the frequency of the first entry of the sequence whose text is
`wordSeq`, and `FREQ_INIT_VALUE` when the sequence has no such entry. -/
theorem LoadOriginalFreq_eq (c : Consts) (pgdata : ChewingData) (phoneSeq : List Nat)
    (wordSeq : String) :
    LoadOriginalFreq c pgdata phoneSeq wordSeq (GetPhoneLen c phoneSeq)
      = match (pgdata.dict (phoneSeq.take (GetPhoneLen c phoneSeq))).find?
            (fun x => decide (x.phrase = wordSeq)) with
        | some p => p.freq
        | none => c.FREQ_INIT_VALUE := by
  unfold LoadOriginalFreq
  rw [TreeFindPhrase_eq]
  cases h : pgdata.dict (phoneSeq.take (GetPhoneLen c phoneSeq)) with
  | nil => simp
  | cons p ps =>
    simp only [LoadOriginalFreq.loop_eq]
    cases (p :: ps).find? (fun x => decide (x.phrase = wordSeq)) <;> simp

theorem addressedBy_eq (c : Consts) (r : UserPhraseRow) (stmt : sqlite3_stmt)
    (phoneSeq : List Nat) (wordSeq : String)
    (hL : stmt.int .DB_INDEX_LENGTH = some (GetPhoneLen c phoneSeq : Int))
    (hP : ∀ i, i < c.MAX_PHRASE_LEN → stmt.int (.DB_INDEX_PHONE i)
      = some (if i < GetPhoneLen c phoneSeq then (phoneSeq.getD i 0 : Int) else 0))
    (hT : stmt.text .DB_INDEX_PHRASE = some wordSeq) :
    r.addressedBy c stmt = decide (r.hasKey c phoneSeq wordSeq) := by
  have hmap : (List.range c.MAX_PHRASE_LEN).map (fun i => stmt.int (.DB_INDEX_PHONE i))
      = (phoneSlots c phoneSeq).map some := by
    unfold phoneSlots
    rw [List.map_map]
    apply List.map_congr_left
    intro i hi
    exact hP i (List.mem_range.1 hi)
  unfold UserPhraseRow.addressedBy UserPhraseRow.hasKey
  rw [hL, hmap, hT]
  have hinj : (phoneSlots c phoneSeq).map some = r.phone.map some
      ↔ r.phone = phoneSlots c phoneSeq := by
    rw [(List.map_injective_iff.2 (Option.some_injective Int)).eq_iff]
    exact eq_comm
  by_cases h1 : r.length = (GetPhoneLen c phoneSeq : Int)
  · by_cases h2 : r.phone = phoneSlots c phoneSeq
    · by_cases h3 : r.phrase = wordSeq
      · simp [h1, h2, h3]
      · have h3' : ¬ wordSeq = r.phrase := fun h => h3 h.symm
        simp [h1, h2, h3, h3']
    · have h2' : ¬ (phoneSlots c phoneSeq).map some = r.phone.map some := fun h => h2 (hinj.1 h)
      simp [h1, h2, h2']
  · have h1' : ¬ (GetPhoneLen c phoneSeq : Int) = r.length := fun h => h1 h.symm
    simp [h1, h1']

/-- The statement after `UserBindPhone` and the bind of the phrase, none of which failed. -/
theorem bound_key_stmt (c : Consts) (stmt : sqlite3_stmt) (phoneSeq : List Nat)
    (wordSeq : String) (hok : ∀ p, stmt.fails (.bind stmt.sql p) = false) :
    sqlite3_bind_text (UserBindPhone c stmt phoneSeq).2 .DB_INDEX_PHRASE wordSeq
      = (.SQLITE_OK, { stmt with ints := boundKey c phoneSeq stmt.ints,
                                 texts := (.DB_INDEX_PHRASE, wordSeq) :: stmt.texts }) := by
  rw [UserBindPhone_ok c stmt phoneSeq hok]
  simp [sqlite3_bind_text, hok]

theorem UserPhraseRow.ofParams_bound (c : Consts) (stmt : sqlite3_stmt) (phoneSeq : List Nat)
    (wordSeq : String)
    (hL : stmt.int .DB_INDEX_LENGTH = some (GetPhoneLen c phoneSeq : Int))
    (hP : ∀ i, i < c.MAX_PHRASE_LEN → stmt.int (.DB_INDEX_PHONE i)
      = some (if i < GetPhoneLen c phoneSeq then (phoneSeq.getD i 0 : Int) else 0))
    (hT : stmt.text .DB_INDEX_PHRASE = some wordSeq) :
    UserPhraseRow.ofParams c stmt
      = { time := (stmt.int .DB_INDEX_TIME).getD 0
          orig_freq := (stmt.int .DB_INDEX_ORIG_FREQ).getD 0
          max_freq := (stmt.int .DB_INDEX_MAX_FREQ).getD 0
          user_freq := (stmt.int .DB_INDEX_USER_FREQ).getD 0
          length := GetPhoneLen c phoneSeq
          phone := phoneSlots c phoneSeq
          phrase := wordSeq } := by
  have hmap : (List.range c.MAX_PHRASE_LEN).map (fun i => (stmt.int (.DB_INDEX_PHONE i)).getD 0)
      = phoneSlots c phoneSeq := by
    unfold phoneSlots
    apply List.map_congr_left
    intro i hi
    rw [hP i (List.mem_range.1 hi)]
    rfl
  unfold UserPhraseRow.ofParams
  rw [hL, hmap, hT]
  rfl

/-- The second half of `UserUpdatePhrase` when no call to the store fails. -/
theorem UserUpdatePhrase.upsert_ok (c : Consts) (pgdata : ChewingData) (phoneSeq : List Nat)
    (wordSeq : String) (action : UserUpdate) (orig_freq max_freq user_freq recent_time : Int)
    (hok : ∀ call, pgdata.db.fails call = false) :
    UserUpdatePhrase.upsert c pgdata phoneSeq wordSeq action orig_freq max_freq user_freq
        recent_time
      = (action, pgdata.withRows (replaceRow c pgdata.db.userphrase_v1 phoneSeq wordSeq
          (writtenRow c phoneSeq wordSeq orig_freq max_freq user_freq recent_time))) := by
  have hb := bound_key_stmt c
    ⟨.DB_UPSERT_USERPHRASE,
      [(.DB_INDEX_TIME, recent_time), (.DB_INDEX_USER_FREQ, user_freq),
        (.DB_INDEX_MAX_FREQ, max_freq), (.DB_INDEX_ORIG_FREQ, orig_freq)],
      [], [], pgdata.db.fails, none⟩ phoneSeq wordSeq (fun p => hok _)
  have hu := UserBindPhone_ok c
    ⟨.DB_UPSERT_USERPHRASE,
      [(.DB_INDEX_TIME, recent_time), (.DB_INDEX_USER_FREQ, user_freq),
        (.DB_INDEX_MAX_FREQ, max_freq), (.DB_INDEX_ORIG_FREQ, orig_freq)],
      [], [], pgdata.db.fails, none⟩ phoneSeq (fun p => hok _)
  obtain ⟨hL, hP, hO⟩ := lookup_boundKey c phoneSeq
    [(.DB_INDEX_TIME, recent_time), (.DB_INDEX_USER_FREQ, user_freq),
      (.DB_INDEX_MAX_FREQ, max_freq), (.DB_INDEX_ORIG_FREQ, orig_freq)]
  have haddr := fun r : UserPhraseRow => addressedBy_eq c r
    ⟨.DB_UPSERT_USERPHRASE,
      boundKey c phoneSeq [(.DB_INDEX_TIME, recent_time), (.DB_INDEX_USER_FREQ, user_freq),
        (.DB_INDEX_MAX_FREQ, max_freq), (.DB_INDEX_ORIG_FREQ, orig_freq)],
      [(.DB_INDEX_PHRASE, wordSeq)], [], pgdata.db.fails, none⟩ phoneSeq wordSeq hL hP
    (by simp [sqlite3_stmt.text, List.lookup_cons])
  have hrow := UserPhraseRow.ofParams_bound c
    ⟨.DB_UPSERT_USERPHRASE,
      boundKey c phoneSeq [(.DB_INDEX_TIME, recent_time), (.DB_INDEX_USER_FREQ, user_freq),
        (.DB_INDEX_MAX_FREQ, max_freq), (.DB_INDEX_ORIG_FREQ, orig_freq)],
      [(.DB_INDEX_PHRASE, wordSeq)], [], pgdata.db.fails, none⟩ phoneSeq wordSeq hL hP
    (by simp [sqlite3_stmt.text, List.lookup_cons])
  simp only [sqlite3_stmt.int] at hrow
  rw [hO _ (by simp) (by simp), hO _ (by simp) (by simp), hO _ (by simp) (by simp),
    hO _ (by simp) (by simp)] at hrow
  simp only [List.lookup_cons] at hrow
  unfold UserUpdatePhrase.upsert
  simp only [sqlite3_prepare_v2, sqlite3_bind_int, hok, Bool.false_eq_true, if_false,
    ne_eq, not_true_eq_false]
  rw [hb, hu]
  simp only [ne_eq, not_true_eq_false, if_false, sqlite3_step, hok, Bool.false_eq_true,
    haddr, hrow]
  rfl

/-- The first half of `UserUpdatePhrase` when no call to the store fails: the exact-key
select finds the row of the pair or none, and the two branches set the frequencies. -/
theorem UserUpdatePhrase_ok (c : Consts) (pgdata : ChewingData) (phoneSeq : List Nat)
    (wordSeq : String) (hok : ∀ call, pgdata.db.fails call = false) :
    UserUpdatePhrase c pgdata phoneSeq wordSeq
      = if (pgdata.db.userphrase_v1.find?
            (fun r => decide (r.hasKey c phoneSeq wordSeq))).isSome then
          UserUpdatePhrase.upsert c pgdata phoneSeq wordSeq .USER_UPDATE_MODIFY
            (sqlite3_column_int pgdata.userphrase_stmt .DB_SELECT_INDEX_ORIG_FREQ)
            (LoadMaxFreq c pgdata phoneSeq (GetPhoneLen c phoneSeq))
            (UpdateFreq c
              (sqlite3_column_int pgdata.userphrase_stmt .DB_SELECT_INDEX_USER_FREQ)
              (sqlite3_column_int pgdata.userphrase_stmt .DB_SELECT_INDEX_MAX_FREQ)
              (sqlite3_column_int pgdata.userphrase_stmt .DB_SELECT_INDEX_ORIG_FREQ)
              (wrap32 (pgdata.new_lifetime
                - sqlite3_column_int pgdata.userphrase_stmt .DB_SELECT_INDEX_TIME)))
            pgdata.new_lifetime
        else
          UserUpdatePhrase.upsert c pgdata phoneSeq wordSeq .USER_UPDATE_INSERT
            (LoadOriginalFreq c pgdata phoneSeq wordSeq (GetPhoneLen c phoneSeq))
            (LoadMaxFreq c pgdata phoneSeq (GetPhoneLen c phoneSeq))
            (LoadOriginalFreq c pgdata phoneSeq wordSeq (GetPhoneLen c phoneSeq))
            pgdata.new_lifetime := by
  have hb := bound_key_stmt c
    ⟨.DB_SELECT_USERPHRASE_BY_PHONE_PHRASE, [], [], [], pgdata.db.fails, none⟩
    phoneSeq wordSeq (fun p => hok _)
  have hu := UserBindPhone_ok c
    ⟨.DB_SELECT_USERPHRASE_BY_PHONE_PHRASE, [], [], [], pgdata.db.fails, none⟩
    phoneSeq (fun p => hok _)
  obtain ⟨hL, hP, _⟩ := lookup_boundKey c phoneSeq []
  have haddr := fun r : UserPhraseRow => addressedBy_eq c r
    ⟨.DB_SELECT_USERPHRASE_BY_PHONE_PHRASE, boundKey c phoneSeq [],
      [(.DB_INDEX_PHRASE, wordSeq)], [], pgdata.db.fails, none⟩ phoneSeq wordSeq hL hP
    (by simp [sqlite3_stmt.text, List.lookup_cons])
  unfold UserUpdatePhrase
  simp only [sqlite3_prepare_v2, hok, Bool.false_eq_true, if_false]
  rw [hb, hu]
  simp only [ne_eq, not_true_eq_false, if_false, sqlite3_step, hok, Bool.false_eq_true,
    haddr, GetCurrentLifeTime]
  cases h : pgdata.db.userphrase_v1.find? (fun r => decide (r.hasKey c phoneSeq wordSeq)) with
  | none => simp
  | some r => simp

/-! ## The frequency update: C1, C5, C6, C7, C8, C9 -/

/-- C1, as stated, fails on 32-bit `int`s: at `freq = maxfreq = 2147483647`,
`origfreq = 0`, `deltatime = 0` the sum `freq + delta` overflows, `UpdateFreq` returns
`-2147483599` and the three-regime definition gives `99999999`.  No values of the
constants with `SHORT_INCREASE_FREQ ≥ 1` and `MAX_ALLOW_FREQ ≥ 0` make the two agree on
all 32-bit inputs. -/
theorem UpdateFreq_overflow_differs_from_nextFreq :
    (int32 2147483647 ∧ int32 0
      ∧ UpdateFreq sampleConsts 2147483647 2147483647 0 0 = -2147483599
      ∧ nextFreq sampleConsts 2147483647 2147483647 0 0 = 99999999)
    ∧ ¬ ∃ c : Consts, 1 ≤ c.SHORT_INCREASE_FREQ ∧ 0 ≤ c.MAX_ALLOW_FREQ
        ∧ ∀ freq maxfreq origfreq deltatime : Int,
          int32 freq → int32 maxfreq → int32 origfreq → int32 deltatime →
          UpdateFreq c freq maxfreq origfreq deltatime
            = nextFreq c freq maxfreq origfreq deltatime := by
  refine ⟨by decide, ?_⟩
  rintro ⟨c, hs, hm, h⟩
  have h1 := h 2147483647 2147483647 0 0 (by decide) (by decide) (by decide) (by decide)
  have e1 : wrap32 (2147483647 - 0) = 2147483647 := by decide
  have e2 : (2147483647 : Int).tdiv 5 + 1 = 429496730 := by decide
  have e3 : wrap32 429496730 = 429496730 := by decide
  have e4 : ((2147483647 : Int) - 0).tdiv 5 + 1 = 429496730 := by decide
  rw [UpdateFreq_short_wrapped _ _ _ _ _ (by decide), e1, e2, e3] at h1
  simp only [nextFreq, show (0 : Int) < 4000 by decide, if_true, ge_iff_le, le_refl, e4] at h1
  unfold wrap32 at h1
  omega

/-- C1, amended. For all `freq`, `maxfreq`, `origfreq` and `deltatime` on which no sum
and no difference of the branch taken leaves the range of a 32-bit `int` (`NoOverflow`,
which holds whenever the frequencies and the increments lie between `-2^29` and `2^29`),
`UpdateFreq` equals the three-regime definition of the specification (`nextFreq`, with
division truncating toward zero): short regime below 4000, medium regime from 4000 below
50000, long regime from 50000 on.  In particular `UpdateFreq(100, 100, 100, 10) = 101`
whenever `SHORT_INCREASE_FREQ ≥ 1` and `MAX_ALLOW_FREQ ≥ 101`. -/
theorem UpdateFreq_eq_nextFreq (c : Consts) (freq maxfreq origfreq deltatime : Int)
    (hn : NoOverflow c freq maxfreq origfreq deltatime) :
    UpdateFreq c freq maxfreq origfreq deltatime = nextFreq c freq maxfreq origfreq deltatime
    ∧ (1 ≤ c.SHORT_INCREASE_FREQ → 101 ≤ c.MAX_ALLOW_FREQ →
        UpdateFreq c 100 100 100 10 = 101) := by
  constructor
  · by_cases h1 : deltatime < 4000
    · rw [UpdateFreq_of_short _ _ _ _ _ h1 hn]
      simp only [nextFreq, if_pos h1]
    · by_cases h2 : deltatime < 50000
      · have h3 : 4000 ≤ deltatime ∧ deltatime < 50000 := ⟨by omega, h2⟩
        rw [UpdateFreq_of_medium _ _ _ _ _ (by omega) h2 hn]
        simp only [nextFreq, if_neg h1, if_pos h3]
      · have h3 : ¬ (4000 ≤ deltatime ∧ deltatime < 50000) := fun h => h2 h.2
        rw [UpdateFreq_of_long _ _ _ _ _ (by omega) hn]
        simp only [nextFreq, if_neg h1, if_neg h3]
  · intro hs hm
    have e1 : wrap32 (100 - 100) = 0 := by decide
    have e2 : wrap32 ((0 : Int).tdiv 5 + 1) = 1 := by decide
    have e3 : wrap32 (100 + 1) = 101 := by decide
    rw [UpdateFreq_short_wrapped _ _ _ _ _ (by decide), e1, e2]
    simp only [ge_iff_le, le_refl, if_true]
    rw [min_eq_left hs, e3]
    omega

/-- The scenario of C1 evaluated: nothing overflows at `(100, 100, 100, 10)`, the two
definitions agree there, and the re-learned record goes from 100 to 101. -/
theorem UpdateFreq_eq_nextFreq_witness :
    UpdateFreq sampleConsts 100 100 100 10 = nextFreq sampleConsts 100 100 100 10
    ∧ UpdateFreq sampleConsts 100 100 100 10 = 101 :=
  ⟨(UpdateFreq_eq_nextFreq sampleConsts 100 100 100 10 (by decide)).1,
    (UpdateFreq_eq_nextFreq sampleConsts 100 100 100 10 (by decide)).2 (by decide) (by decide)⟩

/-- C5. In the long regime (`deltatime ≥ 50000`) the result of `UpdateFreq` is never
below `origfreq`, for all `freq`, `maxfreq`, `origfreq`, all values of the constants and
also when a difference overflows: it is the maximum of `origfreq` and the 32-bit value of
`freq - delta`.  When nothing overflows the result is the decay of the specification,
`max(freq - delta, origfreq)` with
`delta = max((freq - origfreq) / 5, LONG_DECREASE_FREQ)`: for a record at or above its
original frequency it is at most `freq`, and for a record above its original frequency
and `LONG_DECREASE_FREQ ≥ 1` it is below `freq`. -/
theorem UpdateFreq_long_ge_origfreq (c : Consts) (freq maxfreq origfreq deltatime : Int)
    (h : 50000 ≤ deltatime) :
    origfreq ≤ UpdateFreq c freq maxfreq origfreq deltatime
    ∧ UpdateFreq c freq maxfreq origfreq deltatime
        = max (wrap32 (freq - max ((wrap32 (freq - origfreq)).tdiv 5) c.LONG_DECREASE_FREQ))
            origfreq
    ∧ (NoOverflow c freq maxfreq origfreq deltatime →
        UpdateFreq c freq maxfreq origfreq deltatime
          = max (freq - max ((freq - origfreq).tdiv 5) c.LONG_DECREASE_FREQ) origfreq)
    ∧ (NoOverflow c freq maxfreq origfreq deltatime → origfreq ≤ freq →
        UpdateFreq c freq maxfreq origfreq deltatime ≤ freq)
    ∧ (NoOverflow c freq maxfreq origfreq deltatime → origfreq < freq →
        1 ≤ c.LONG_DECREASE_FREQ →
        UpdateFreq c freq maxfreq origfreq deltatime < freq) := by
  refine ⟨?_, UpdateFreq_long_wrapped _ _ _ _ _ h, ?_, ?_, ?_⟩
  · rw [UpdateFreq_long_wrapped _ _ _ _ _ h]
    exact le_max_right _ _
  · intro hn
    exact UpdateFreq_of_long _ _ _ _ _ h hn
  · intro hn ho
    rw [UpdateFreq_of_long _ _ _ _ _ h hn, tdiv5, if_pos (by omega)]
    omega
  · intro hn ho hl
    rw [UpdateFreq_of_long _ _ _ _ _ h hn, tdiv5, if_pos (by omega)]
    omega

/-- The long-interval update of the record (200, 100, 100): it stays at or above 100, it
is `max(200 - max(20, 10), 100) = 180`, and it is below 200. -/
theorem UpdateFreq_long_ge_origfreq_witness :
    (100 : Int) ≤ UpdateFreq sampleConsts 200 100 100 60000
    ∧ UpdateFreq sampleConsts 200 100 100 60000 = 180
    ∧ UpdateFreq sampleConsts 200 100 100 60000 < 200 :=
  ⟨(UpdateFreq_long_ge_origfreq sampleConsts 200 100 100 60000 (by decide)).1,
    (UpdateFreq_long_ge_origfreq sampleConsts 200 100 100 60000 (by decide)).2.2.1 (by decide),
    (UpdateFreq_long_ge_origfreq sampleConsts 200 100 100 60000 (by decide)).2.2.2.2
      (by decide) (by decide) (by decide)⟩

/-- C6, as stated, fails: with `freq = 50`, `maxfreq = 0`, `origfreq = 100` and
`deltatime = 0` the short-interval update lowers the frequency from 50 to 31, although
50 is below `MAX_ALLOW_FREQ` and nothing overflows; the same input refutes the claim for
all constants with a 32-bit `SHORT_INCREASE_FREQ` and `MAX_ALLOW_FREQ > 50`. -/
theorem short_update_can_lower_freq :
    ((0 : Int) < 4000 ∧ 50 < sampleConsts.MAX_ALLOW_FREQ
      ∧ UpdateFreq sampleConsts 50 0 100 0 = 31)
    ∧ ¬ ∃ c : Consts, int32 c.SHORT_INCREASE_FREQ ∧ 50 < c.MAX_ALLOW_FREQ
        ∧ ∀ freq maxfreq origfreq deltatime : Int,
          int32 freq → int32 maxfreq → int32 origfreq → int32 deltatime →
          deltatime < 4000 →
          (freq < c.MAX_ALLOW_FREQ → freq < UpdateFreq c freq maxfreq origfreq deltatime)
          ∧ (freq = c.MAX_ALLOW_FREQ →
              UpdateFreq c freq maxfreq origfreq deltatime = c.MAX_ALLOW_FREQ) := by
  refine ⟨by decide, ?_⟩
  rintro ⟨c, hs, hm, h⟩
  have h1 := (h 50 0 100 0 (by decide) (by decide) (by decide) (by decide) (by decide)).1 hm
  have e1 : wrap32 (0 - 100) = -100 := by decide
  have e2 : wrap32 ((-100 : Int).tdiv 5 + 1) = -19 := by decide
  rw [UpdateFreq_short_wrapped _ _ _ _ _ (by decide), e1, e2] at h1
  simp only [ge_iff_le, show (0 : Int) ≤ 50 by decide, if_true] at h1
  unfold int32 at hs
  unfold wrap32 at h1
  omega

/-- C6, amended. For `deltatime < 4000`, `SHORT_INCREASE_FREQ ≥ 1`, a record with
`freq < maxfreq` or `origfreq < maxfreq + 5` (in particular whenever
`origfreq ≤ maxfreq`), and no overflow of `maxfreq - origfreq` and `freq + delta`
(`NoOverflow`): if `freq < MAX_ALLOW_FREQ` then `UpdateFreq` returns more than `freq`,
and if `freq = MAX_ALLOW_FREQ` it returns `MAX_ALLOW_FREQ`. -/
theorem UpdateFreq_short_increase (c : Consts) (freq maxfreq origfreq deltatime : Int)
    (hd : deltatime < 4000) (hs : 1 ≤ c.SHORT_INCREASE_FREQ)
    (hm : freq < maxfreq ∨ origfreq < maxfreq + 5)
    (hn : NoOverflow c freq maxfreq origfreq deltatime) :
    (freq < c.MAX_ALLOW_FREQ → freq < UpdateFreq c freq maxfreq origfreq deltatime)
    ∧ (freq = c.MAX_ALLOW_FREQ →
        UpdateFreq c freq maxfreq origfreq deltatime = c.MAX_ALLOW_FREQ) := by
  rw [UpdateFreq_of_short _ _ _ _ _ hd hn, tdiv5]
  by_cases hf : freq ≥ maxfreq
  · have ho : origfreq < maxfreq + 5 := by omega
    rw [if_pos hf]
    constructor <;> intro h <;> split <;> omega
  · rw [if_neg hf]
    constructor <;> intro h <;> split <;> omega

/-- The record (100, 100, 100) re-learned after 10 ticks: its frequency grows. -/
theorem UpdateFreq_short_increase_witness :
    ((100 : Int) < sampleConsts.MAX_ALLOW_FREQ → 100 < UpdateFreq sampleConsts 100 100 100 10)
    ∧ ((100 : Int) = sampleConsts.MAX_ALLOW_FREQ →
        UpdateFreq sampleConsts 100 100 100 10 = sampleConsts.MAX_ALLOW_FREQ) :=
  UpdateFreq_short_increase sampleConsts 100 100 100 10 (by decide) (by decide)
    (Or.inr (by decide)) (by decide)

/-- C7, as stated, fails: with `freq = 5` below `origfreq = 100` the long-interval update
returns the floor 100, which is above the previous value 5, and it does so for every
value of the constants. -/
theorem long_update_can_raise_freq :
    ((50000 : Int) ≤ 50000 ∧ UpdateFreq sampleConsts 5 0 100 50000 = 100)
    ∧ ¬ ∃ c : Consts, ∀ freq maxfreq origfreq deltatime : Int,
        int32 freq → int32 maxfreq → int32 origfreq → int32 deltatime →
        50000 ≤ deltatime →
        UpdateFreq c freq maxfreq origfreq deltatime ≤ freq := by
  refine ⟨by decide, ?_⟩
  rintro ⟨c, h⟩
  have h1 := h 5 0 100 50000 (by decide) (by decide) (by decide) (by decide) (by decide)
  rw [UpdateFreq_long_wrapped _ _ _ _ _ (by decide)] at h1
  have h2 := le_max_right
    (wrap32 (5 - max ((wrap32 (5 - 100)).tdiv 5) c.LONG_DECREASE_FREQ)) (100 : Int)
  omega

/-- C7, amended. For `deltatime ≥ 50000`, a record whose user frequency is not below its
original frequency (`origfreq ≤ freq`) and no overflow of `freq - origfreq` and
`freq - delta` (`NoOverflow`), `UpdateFreq` returns at most `freq`. -/
theorem UpdateFreq_long_le_freq (c : Consts) (freq maxfreq origfreq deltatime : Int)
    (hd : 50000 ≤ deltatime) (ho : origfreq ≤ freq)
    (hn : NoOverflow c freq maxfreq origfreq deltatime) :
    UpdateFreq c freq maxfreq origfreq deltatime ≤ freq := by
  rw [UpdateFreq_of_long _ _ _ _ _ hd hn, tdiv5, if_pos (by omega)]
  omega

/-- The record (200, 100, 100) after 60000 ticks does not grow. -/
theorem UpdateFreq_long_le_freq_witness :
    UpdateFreq sampleConsts 200 100 100 60000 ≤ 200 :=
  UpdateFreq_long_le_freq sampleConsts 200 100 100 60000 (by decide) (by decide) (by decide)

/-- C8, as stated, fails in the long regime, which has no ceiling: a record with
`freq = origfreq = 100000000` keeps 100000000, above `MAX_ALLOW_FREQ = 99999999`; for
every `MAX_ALLOW_FREQ` below the greatest 32-bit `int` some 32-bit record does the
same. -/
theorem long_update_can_exceed_max_allow :
    (sampleConsts.MAX_ALLOW_FREQ = 99999999
      ∧ UpdateFreq sampleConsts 100000000 0 100000000 50000 = 100000000)
    ∧ ¬ ∃ c : Consts, c.MAX_ALLOW_FREQ < 2147483647
        ∧ ∀ freq maxfreq origfreq deltatime : Int,
          int32 freq → int32 maxfreq → int32 origfreq → int32 deltatime →
          UpdateFreq c freq maxfreq origfreq deltatime ≤ c.MAX_ALLOW_FREQ := by
  refine ⟨by decide, ?_⟩
  rintro ⟨c, hm, h⟩
  have h1 := h 2147483647 0 2147483647 50000 (by decide) (by decide) (by decide) (by decide)
  rw [UpdateFreq_long_wrapped _ _ _ _ _ (by decide)] at h1
  have h2 := le_max_right
    (wrap32 (2147483647 - max ((wrap32 (2147483647 - 2147483647)).tdiv 5)
      c.LONG_DECREASE_FREQ)) (2147483647 : Int)
  omega

/-- C8, amended. In the short and medium regimes (`deltatime < 50000`) `UpdateFreq`
returns at most `MAX_ALLOW_FREQ` for all inputs, also when a sum overflows; in the long
regime it does so when both `freq` and `origfreq` are at most `MAX_ALLOW_FREQ` and
neither `freq - origfreq` nor `freq - delta` overflows (`NoOverflow`). -/
theorem UpdateFreq_le_max_allow (c : Consts) (freq maxfreq origfreq deltatime : Int)
    (h : 50000 ≤ deltatime → freq ≤ c.MAX_ALLOW_FREQ ∧ origfreq ≤ c.MAX_ALLOW_FREQ
      ∧ NoOverflow c freq maxfreq origfreq deltatime) :
    UpdateFreq c freq maxfreq origfreq deltatime ≤ c.MAX_ALLOW_FREQ := by
  by_cases h1 : deltatime < 4000
  · rw [UpdateFreq_short_wrapped _ _ _ _ _ h1]
    exact min_le_right _ _
  · by_cases h2 : deltatime < 50000
    · rw [UpdateFreq_medium_wrapped _ _ _ _ _ (by omega) h2]
      exact min_le_right _ _
    · obtain ⟨hf, ho, hn⟩ := h (by omega)
      rw [UpdateFreq_of_long _ _ _ _ _ (by omega) hn, tdiv5]
      split <;> omega

/-- The record (200, 100, 100) after 60000 ticks stays below the ceiling. -/
theorem UpdateFreq_le_max_allow_witness :
    UpdateFreq sampleConsts 200 100 100 60000 ≤ sampleConsts.MAX_ALLOW_FREQ :=
  UpdateFreq_le_max_allow sampleConsts 200 100 100 60000
    (fun _ => ⟨by decide, by decide, by decide⟩)

/-- C9, as stated, fails: `UpdateFreq(101, 100, 100, 60000)` is 100, not 91, because
`max(101 - 10, 100) = 100`; no value of the constants gives 91. -/
theorem long_scenario_result_is_not_91 :
    (sampleConsts.LONG_DECREASE_FREQ = 10 ∧ UpdateFreq sampleConsts 101 100 100 60000 = 100)
    ∧ ¬ ∃ c : Consts, UpdateFreq c 101 100 100 60000 = 91 := by
  refine ⟨by decide, ?_⟩
  rintro ⟨c, h⟩
  rw [UpdateFreq_long_wrapped _ _ _ _ _ (by decide)] at h
  have h2 := le_max_right
    (wrap32 (101 - max ((wrap32 (101 - 100)).tdiv 5) c.LONG_DECREASE_FREQ)) (100 : Int)
  omega

/-- C9, amended. With `LONG_DECREASE_FREQ = 10`, a record with user frequency 101,
maximum 100 and original frequency 100 updated after 60000 ticks gets `delta = 10` and
the new user frequency `max(101 - 10, 100) = 100`: the decay stops at the original
frequency. -/
theorem UpdateFreq_scenario_long (c : Consts) (h : c.LONG_DECREASE_FREQ = 10) :
    c_max (((101 : Int) - 100).tdiv 5) c.LONG_DECREASE_FREQ = 10
    ∧ UpdateFreq c 101 100 100 60000 = 100 := by
  have h0 : ((101 : Int) - 100).tdiv 5 = 0 := by decide
  have e1 : wrap32 (101 - 100) = 101 - 100 := by decide
  constructor
  · rw [c_max_eq, h0, h]; decide
  · rw [UpdateFreq_long_wrapped _ _ _ _ _ (by decide), e1, h0, h]; decide

/-- The scenario of C9 with the sample constants. -/
theorem UpdateFreq_scenario_long_witness :
    c_max (((101 : Int) - 100).tdiv 5) sampleConsts.LONG_DECREASE_FREQ = 10
    ∧ UpdateFreq sampleConsts 101 100 100 60000 = 100 :=
  UpdateFreq_scenario_long sampleConsts (by decide)

/-! ## The upsert: C2, C3 -/

/-- C2, the failing input. The record of ("A", `[1, 2]`), `recordA`, is stored with
`orig_freq = user_freq = max_freq = 100` and `time = 0`, no store call fails and the
lifetime is 10, so the claim asks for `orig_freq = 100` and
`user_freq = UpdateFreq(100, 100, 100, 10) = 101`.  The code returns `USER_UPDATE_MODIFY`
but writes `orig_freq = 7` and `user_freq = UpdateFreq(8, 7, 7, 10 - 5) = 9`: the values
of `recordC`, the row the statement of the open retrieval points to. -/
theorem UserUpdatePhrase_modify_reads_retrieval_stmt :
    recordA ∈ openRetrievalState.db.userphrase_v1
    ∧ recordA.hasKey sampleConsts [1, 2] "A"
    ∧ (UserUpdatePhrase sampleConsts openRetrievalState [1, 2] "A").1 = .USER_UPDATE_MODIFY
    ∧ (UserUpdatePhrase sampleConsts openRetrievalState [1, 2] "A").2.db.userphrase_v1
        = [recordC, { recordA with time := 10, orig_freq := 7, user_freq := 9 }]
    ∧ UpdateFreq sampleConsts recordA.user_freq recordA.max_freq recordA.orig_freq
        (10 - recordA.time) = 101
    ∧ UpdateFreq sampleConsts recordC.user_freq recordC.max_freq recordC.orig_freq
        (10 - recordC.time) = 9 := by
  decide

/-- The same update with no retrieval open: every column read from the null statement is
0, and the row written for ("A", `[1, 2]`) has `orig_freq = 0` and
`user_freq = UpdateFreq(0, 0, 0, 10) = 1`. -/
theorem UserUpdatePhrase_modify_without_retrieval :
    (UserUpdatePhrase sampleConsts noRetrievalState [1, 2] "A").1 = .USER_UPDATE_MODIFY
    ∧ (UserUpdatePhrase sampleConsts noRetrievalState [1, 2] "A").2.db.userphrase_v1
        = [recordC, { recordA with time := 10, orig_freq := 0, user_freq := 1 }] := by
  decide

/-- C3. For every pair `(phoneSeq, wordSeq)` that has no record in the table, a call of
`UserUpdatePhrase` in which no store call fails returns `USER_UPDATE_INSERT` and adds one
row, the record of the pair, whose `user_freq` and `orig_freq` both are
`LoadOriginalFreq(phoneSeq, wordSeq)`; that value is the frequency of the (first) entry
of the static dictionary under `phoneSeq` whose text equals `wordSeq`, and
`FREQ_INIT_VALUE` when there is no such entry. -/
theorem UserUpdatePhrase_insert (c : Consts) (pgdata : ChewingData) (phoneSeq : List Nat)
    (wordSeq : String) (hok : ∀ call, pgdata.db.fails call = false)
    (hnew : ∀ r ∈ pgdata.db.userphrase_v1, ¬ r.hasKey c phoneSeq wordSeq) :
    (UserUpdatePhrase c pgdata phoneSeq wordSeq).1 = .USER_UPDATE_INSERT
    ∧ (∃ row : UserPhraseRow,
        (UserUpdatePhrase c pgdata phoneSeq wordSeq).2
          = pgdata.withRows (pgdata.db.userphrase_v1 ++ [row])
        ∧ row.hasKey c phoneSeq wordSeq
        ∧ row.user_freq = LoadOriginalFreq c pgdata phoneSeq wordSeq (GetPhoneLen c phoneSeq)
        ∧ row.orig_freq = LoadOriginalFreq c pgdata phoneSeq wordSeq (GetPhoneLen c phoneSeq))
    ∧ LoadOriginalFreq c pgdata phoneSeq wordSeq (GetPhoneLen c phoneSeq)
        = (match (pgdata.dict (phoneSeq.take (GetPhoneLen c phoneSeq))).find?
              (fun x => decide (x.phrase = wordSeq)) with
          | some p => p.freq
          | none => c.FREQ_INIT_VALUE) := by
  have hfind : pgdata.db.userphrase_v1.find? (fun r => decide (r.hasKey c phoneSeq wordSeq))
      = none := by
    rw [List.find?_eq_none]
    intro r hr
    simpa using hnew r hr
  have hfilter : pgdata.db.userphrase_v1.filter
      (fun r => !decide (r.hasKey c phoneSeq wordSeq)) = pgdata.db.userphrase_v1 := by
    rw [List.filter_eq_self]
    intro r hr
    simpa using hnew r hr
  rw [UserUpdatePhrase_ok c pgdata phoneSeq wordSeq hok, hfind]
  simp only [Option.isSome_none, Bool.false_eq_true, if_false]
  rw [UserUpdatePhrase.upsert_ok _ _ _ _ _ _ _ _ _ hok]
  refine ⟨rfl, ⟨writtenRow c phoneSeq wordSeq
      (LoadOriginalFreq c pgdata phoneSeq wordSeq (GetPhoneLen c phoneSeq))
      (LoadMaxFreq c pgdata phoneSeq (GetPhoneLen c phoneSeq))
      (LoadOriginalFreq c pgdata phoneSeq wordSeq (GetPhoneLen c phoneSeq))
      pgdata.new_lifetime, ?_, ⟨rfl, rfl, rfl⟩, rfl, rfl⟩,
    LoadOriginalFreq_eq c pgdata phoneSeq wordSeq⟩
  simp only [replaceRow, hfilter]

/-- The first learning of ("A", `[1, 2]`) in `freshState`, whose table is empty: an
insert whose row starts at 100, the dictionary frequency of "A". -/
theorem UserUpdatePhrase_insert_witness :
    (UserUpdatePhrase sampleConsts freshState [1, 2] "A").1 = .USER_UPDATE_INSERT
    ∧ (∃ row : UserPhraseRow,
        (UserUpdatePhrase sampleConsts freshState [1, 2] "A").2
          = freshState.withRows (freshState.db.userphrase_v1 ++ [row])
        ∧ row.hasKey sampleConsts [1, 2] "A"
        ∧ row.user_freq
            = LoadOriginalFreq sampleConsts freshState [1, 2] "A" (GetPhoneLen sampleConsts [1, 2])
        ∧ row.orig_freq
            = LoadOriginalFreq sampleConsts freshState [1, 2] "A" (GetPhoneLen sampleConsts [1, 2]))
    ∧ LoadOriginalFreq sampleConsts freshState [1, 2] "A" (GetPhoneLen sampleConsts [1, 2])
        = 100 :=
  UserUpdatePhrase_insert sampleConsts freshState [1, 2] "A" (fun _ => rfl) (by decide)

/-! ## The maximum frequency: C4 -/

/-- C4, the failing inputs. In `staticAboveUserState` the static maximum of `[1, 2]` is
500 and the stored maximum is 100: `LoadMaxFreq` returns 100, the column of the
aggregate, not `max(500, 100)`.  In `failingAggregateState` the static maximum is 100,
the stored maximum is 500 and the aggregate query fails: `LoadMaxFreq` returns 100. -/
theorem LoadMaxFreq_not_max_of_both :
    (staticAboveUserState.dict [1, 2] = [{ phrase := "A", freq := 500 }]
      ∧ max_user_freq staticAboveUserState.db.userphrase_v1 (some [1, 2, 0]) = some 100
      ∧ LoadMaxFreq sampleConsts staticAboveUserState [1, 2] 2 = 100)
    ∧ (failingAggregateState.dict [1, 2] = [{ phrase := "A", freq := 100 }]
      ∧ max_user_freq failingAggregateState.db.userphrase_v1 (some [1, 2, 0]) = some 500
      ∧ LoadMaxFreq sampleConsts failingAggregateState [1, 2] 2 = 100) := by
  decide

/-! ## The key binding: C10 -/

/-- C10. With `GetPhoneLen` as the specification describes it (the count of leading
non-zero codes, capped at `MAX_PHRASE_LEN`), a call of `UserBindPhone` whose binds all
succeed returns `SQLITE_OK`, binds the length parameter to `len`, binds every phone slot
`i < MAX_PHRASE_LEN` to `phoneSeq[i]` if `i < len` and to 0 otherwise, and leaves every
other parameter as it was.  The codes from `MAX_PHRASE_LEN` on play no role (the sequence
is truncated), and two sequences that agree up to their first zero code are bound
identically. -/
theorem UserBindPhone_binds (c : Consts) (stmt : sqlite3_stmt) (phoneSeq : List Nat)
    (hok : ∀ p, stmt.fails (.bind stmt.sql p) = false) :
    GetPhoneLen c phoneSeq = min (phoneSeq.takeWhile (fun x => x ≠ 0)).length c.MAX_PHRASE_LEN
    ∧ (UserBindPhone c stmt phoneSeq).1 = .SQLITE_OK
    ∧ (UserBindPhone c stmt phoneSeq).2.int .DB_INDEX_LENGTH
        = some (GetPhoneLen c phoneSeq : Int)
    ∧ (∀ i, i < c.MAX_PHRASE_LEN →
        (UserBindPhone c stmt phoneSeq).2.int (.DB_INDEX_PHONE i)
          = some (if i < GetPhoneLen c phoneSeq then (phoneSeq.getD i 0 : Int) else 0))
    ∧ (∀ p, p ≠ .DB_INDEX_LENGTH → (∀ i, i < c.MAX_PHRASE_LEN → p ≠ .DB_INDEX_PHONE i) →
        (UserBindPhone c stmt phoneSeq).2.int p = stmt.int p)
    ∧ ((UserBindPhone c stmt phoneSeq).2.texts = stmt.texts
        ∧ (UserBindPhone c stmt phoneSeq).2.blobs = stmt.blobs)
    ∧ UserBindPhone c stmt (phoneSeq.take c.MAX_PHRASE_LEN) = UserBindPhone c stmt phoneSeq
    ∧ (∀ q : List Nat, q.takeWhile (fun x => x ≠ 0) = phoneSeq.takeWhile (fun x => x ≠ 0) →
        UserBindPhone c stmt q = UserBindPhone c stmt phoneSeq) := by
  obtain ⟨h1, h2, h3⟩ := UserBindPhone_int c stmt phoneSeq hok
  refine ⟨rfl, ?_, h1, h2, h3, ?_, ?_, ?_⟩
  · rw [UserBindPhone_ok c stmt phoneSeq hok]
  · rw [UserBindPhone_ok c stmt phoneSeq hok]
    exact ⟨rfl, rfl⟩
  · apply UserBindPhone_congr
    · exact GetPhoneLen_take c phoneSeq
    · intro i hi
      rw [GetPhoneLen_take] at hi
      exact getD_take phoneSeq _ i 0 (lt_of_lt_of_le hi (GetPhoneLen_le c phoneSeq))
  · intro q hq
    have hlen := GetPhoneLen_congr c phoneSeq q hq
    apply UserBindPhone_congr c stmt q phoneSeq hlen
    intro i hi
    have hi1 : i < (q.takeWhile (fun x => decide (x ≠ 0))).length := by
      unfold GetPhoneLen at hi; omega
    have hi2 : i < (phoneSeq.takeWhile (fun x => decide (x ≠ 0))).length := by
      rw [← hq]; exact hi1
    rw [← getD_takeWhile _ q i 0 hi1, ← getD_takeWhile _ phoneSeq i 0 hi2, hq]

/-- Binding the key of `[1, 2, 0, 9]` to a fresh statement: the call succeeds, the length
is 2, and the code 9 behind the terminator is not bound. -/
theorem UserBindPhone_binds_witness :
    (UserBindPhone sampleConsts
        ⟨.DB_UPSERT_USERPHRASE, [], [], [], fun _ => false, none⟩ [1, 2, 0, 9]).1 = .SQLITE_OK
    ∧ (UserBindPhone sampleConsts
        ⟨.DB_UPSERT_USERPHRASE, [], [], [], fun _ => false, none⟩ [1, 2, 0, 9]).2.int
          .DB_INDEX_LENGTH = some 2
    ∧ UserBindPhone sampleConsts
        ⟨.DB_UPSERT_USERPHRASE, [], [], [], fun _ => false, none⟩ [1, 2]
      = UserBindPhone sampleConsts
        ⟨.DB_UPSERT_USERPHRASE, [], [], [], fun _ => false, none⟩ [1, 2, 0, 9] :=
  ⟨(UserBindPhone_binds sampleConsts
      ⟨.DB_UPSERT_USERPHRASE, [], [], [], fun _ => false, none⟩ [1, 2, 0, 9]
      (fun _ => rfl)).2.1,
    (UserBindPhone_binds sampleConsts
      ⟨.DB_UPSERT_USERPHRASE, [], [], [], fun _ => false, none⟩ [1, 2, 0, 9]
      (fun _ => rfl)).2.2.1,
    (UserBindPhone_binds sampleConsts
      ⟨.DB_UPSERT_USERPHRASE, [], [], [], fun _ => false, none⟩ [1, 2, 0, 9]
      (fun _ => rfl)).2.2.2.2.2.2.2 [1, 2] (by decide)⟩

end Chewing
